import Mathlib

/-
  Verification development for the CS5850 2D shooting-gallery game
  (C++, ECS architecture).  Each section shallowly embeds one part of
  the source: pure methods become Lean functions over explicit state
  records; machine floats used for game time, positions and sizes are
  modelled by rationals; fallible operations return Option.
-/

namespace Shooter

/-! ## Global round state (src/game/ecs/components/ShootingGalleryState.cpp)

The round state machine MENU / PLAYING / GAME_OVER with score, high
score, countdown timer and shot statistics.  The high-score file write
performed by saveHighScore() is modelled by the flag highScoreSaved. -/

inductive GameState where
  | MENU
  | PLAYING
  | GAME_OVER
deriving DecidableEq, Repr

structure ShootingGalleryState where
  state : GameState
  score : Int
  highScore : Int
  timeRemaining : ℚ
  shotsFired : Int
  targetsHit : Int
  highScoreSaved : Bool
deriving DecidableEq, Repr

namespace ShootingGalleryState

/-- ShootingGalleryState::isPlaying. -/
def isPlaying (g : ShootingGalleryState) : Bool :=
  g.state = GameState.PLAYING

/-- ShootingGalleryState::addScore: only positive point totals are
    recorded; a new high score is written through immediately. -/
def addScore (g : ShootingGalleryState) (points : Int) : ShootingGalleryState :=
  if points > 0 then
    let g1 := { g with score := g.score + points, targetsHit := g.targetsHit + 1 }
    if g1.score > g1.highScore then
      { g1 with highScore := g1.score, highScoreSaved := true }
    else g1
  else g

/-- ShootingGalleryState::endGame: enter GAME_OVER and persist the high
    score when the final score beats it. -/
def endGame (g : ShootingGalleryState) : ShootingGalleryState :=
  let g1 := { g with state := GameState.GAME_OVER }
  if g1.score > g1.highScore then
    { g1 with highScore := g1.score, highScoreSaved := true }
  else g1

/-- ShootingGalleryState::updateTimer: while PLAYING and deltaTime is
    positive, count the round timer down (clamped at zero) and end the
    game the moment it reaches zero. -/
def updateTimer (g : ShootingGalleryState) (deltaTime : ℚ) : ShootingGalleryState :=
  if g.isPlaying && decide (deltaTime > 0) then
    let g1 := { g with timeRemaining := max 0 (g.timeRemaining - deltaTime) }
    if g1.timeRemaining ≤ 0 then g1.endGame else g1
  else g

/-- Division as the C++ float division actually performed in
    getAccuracy: none models the (undefined-for-int, NaN-for-float)
    division-by-zero outcome that the guard must avoid. -/
def divChecked (a b : ℚ) : Option ℚ :=
  if b = 0 then none else some (a / b)

/-- ShootingGalleryState::getAccuracy: 0 when no shot was fired,
    otherwise hit percentage.  The division is routed through
    divChecked so that reaching a zero divisor would surface as none. -/
def getAccuracy (g : ShootingGalleryState) : Option ℚ :=
  if g.shotsFired ≤ 0 then some 0
  else (divChecked (g.targetsHit : ℚ) (g.shotsFired : ℚ)).map (fun q => q * 100)

end ShootingGalleryState

/-! ## Target component (src/game/ecs/components/Target.cpp) -/

structure Target where
  pointValue : Int
  targetType : String
  isHit : Bool
deriving DecidableEq, Repr

/-- Target::markAsHit. -/
def Target.markAsHit (t : Target) : Target :=
  { t with isHit := true }

/-! ## Projectile-target hit handling
  (src/game/ecs/systems/ProjectileSystem.cpp,
   ProjectileSystem::handleProjectileTargetCollision)

The slice of world state the handler touches: the two entities'
Expirable components (none = component absent, some f = component
present with isExpiredFlag f), the target's Target component (the
handler is only invoked by processCollisionResults after checking the
other entity has one), and the global round state. -/

structure HitContext where
  projectileExpirable : Option Bool
  targetExpirable : Option Bool
  target : Target
  gallery : ShootingGalleryState
deriving DecidableEq, Repr

/-- ProjectileSystem::handleProjectileTargetCollision: bail out when
    either entity is already expired or the target is already hit;
    otherwise mark the target hit, record the score, and mark whichever
    Expirable components exist as expired. -/
def handleProjectileTargetCollision (c : HitContext) : HitContext :=
  if c.projectileExpirable.getD false || c.targetExpirable.getD false then c
  else if c.target.isHit then c
  else
    let t := c.target.markAsHit
    let g := c.gallery.addScore t.pointValue
    { projectileExpirable := c.projectileExpirable.map (fun _ => true)
      targetExpirable := c.targetExpirable.map (fun _ => true)
      target := t
      gallery := g }

/-! ## System registration order (src/game/GameWorld.cpp,
  GameWorld::initialize)

The eleven systems added to the SystemManager, in source order.
SystemManager::update iterates systems in this registration order, so
the list is also the per-frame update order.  marksExpirable records
which registered systems call Expirable::markExpired anywhere in their
source (DuckMovementSystem.cpp lines 72 and 79, ProjectileSystem.cpp
lines 393, 452 and 458); createsDestroyRequest records which ones add a
DestroyRequest component (none do in this codebase). -/

inductive SystemId where
  | uiEvent
  | playerControl
  | gameState
  | targetSpawn
  | duckMovement
  | movement
  | projectile
  | collision
  | expiredEntities
  | render
  | event
deriving DecidableEq, Repr

def registeredSystems : List SystemId :=
  [SystemId.uiEvent, SystemId.playerControl, SystemId.gameState,
   SystemId.targetSpawn, SystemId.duckMovement, SystemId.movement,
   SystemId.projectile, SystemId.collision, SystemId.expiredEntities,
   SystemId.render, SystemId.event]

def regIndex (s : SystemId) : Nat :=
  registeredSystems.indexOf s

def marksExpirable : SystemId → Bool
  | SystemId.duckMovement => true
  | SystemId.projectile => true
  | _ => false

def createsDestroyRequest : SystemId → Bool
  | _ => false

/-! ## System tracked-entity list (src/game/ecs/System.cpp)

System::entities_ is a vector of entities in insertion order; entities
are compared by their numeric id, so the list is modelled as a list of
ids.  hasRequiredComponents consults the component store for every
registered required component type; the store is modelled as the
hasComponent membership function (entity id, component type id) that
ComponentManager::hasComponent implements. -/

structure SysState where
  entities : List Nat
deriving DecidableEq, Repr

namespace SysState

/-- System::addEntity: no-op when an entity with the same id is already
    tracked, otherwise append. -/
def addEntity (s : SysState) (e : Nat) : SysState :=
  if s.entities.any (fun x => x == e) then s
  else { entities := s.entities ++ [e] }

/-- System::removeEntity: erase the first entity with a matching id; a
    miss is a logged no-op. -/
def removeEntity (s : SysState) (e : Nat) : SysState :=
  { entities := s.entities.erase e }

end SysState

/-- System::hasRequiredComponents over the type-erased membership test
    ComponentManager::hasComponent (the componentManager_ pointer is
    always set by the System constructor). -/
def hasRequiredComponents (required : List Nat) (hasComp : Nat → Nat → Bool)
    (e : Nat) : Bool :=
  required.all (fun t => hasComp e t)

/-- SystemManager::onComponentAdded restricted to one system: re-test
    the required set and (idempotently) add the entity on success. -/
def onComponentAdded (required : List Nat) (hasComp : Nat → Nat → Bool)
    (e : Nat) (s : SysState) : SysState :=
  if hasRequiredComponents required hasComp e then s.addEntity e else s

/-! ## Component store (src/game/ecs/ComponentManager.hpp)

components_ is a map from component type to a map from entity id to the
component instance; storing through operator[] silently replaces any
existing entry for the same (type, entity) key.  The nested maps are
modelled as an association list keyed by the (typeId, entityId) pair so
that multiplicity of entries is observable. -/

/-- ComponentManager::addComponent: assign through operator[] — replace
    the entry when the key exists, insert otherwise. -/
def addComponent {α : Type} (tid eid : Nat) (v : α)
    (st : List ((Nat × Nat) × α)) : List ((Nat × Nat) × α) :=
  if st.any (fun p => p.1 == (tid, eid)) then
    st.map (fun p => if p.1 == (tid, eid) then (p.1, v) else p)
  else st ++ [((tid, eid), v)]

/-- All component instances of type tid attached to entity eid. -/
def componentsFor {α : Type} (tid eid : Nat)
    (st : List ((Nat × Nat) × α)) : List α :=
  (st.filter (fun p => p.1 == (tid, eid))).map Prod.snd

/-! ## ShootRequest processing (src/game/ecs/components/ShootRequest.cpp
  and src/game/ecs/systems/ProjectileSystem.cpp,
  ProjectileSystem::processShootRequests)

A ShootRequest records its creation timestamp; ages are differences of
clock readings, with the current clock reading passed in explicitly.
processShootRequests walks the entities holding a ShootRequest (each
entity holds at most one): an already-processed request is left alone,
a stale unprocessed one (age over 1 second) is removed and counted,
and any other unprocessed one yields a freshly created projectile
entity, after which the request is removed.  The outcome records the
surviving requests, the two counter increments and the requesters a
projectile was created for. -/

structure ShootRequest where
  posX : ℚ
  posY : ℚ
  processed : Bool
  timestamp : ℚ
deriving DecidableEq, Repr

namespace ShootRequest

/-- ShootRequest::getAge at clock reading now. -/
def getAge (r : ShootRequest) (now : ℚ) : ℚ :=
  now - r.timestamp

/-- ShootRequest::isStale. -/
def isStale (r : ShootRequest) (now maxAge : ℚ) : Bool :=
  r.getAge now > maxAge

end ShootRequest

structure ShootOutcome where
  remaining : List (Nat × ShootRequest)
  staleDelta : Nat
  processedDelta : Nat
  createdFor : List Nat
deriving DecidableEq, Repr

/-- ProjectileSystem::processShootRequests over the snapshot list of
    (entity id, ShootRequest) pairs, at clock reading now.  Counter
    fields are the increments applied to requestsStale_ and
    requestsProcessed_. -/
def processShootRequests (now : ℚ) :
    List (Nat × ShootRequest) → ShootOutcome
  | [] => { remaining := [], staleDelta := 0, processedDelta := 0, createdFor := [] }
  | (e, r) :: rest =>
    if r.processed then
      let o := processShootRequests now rest
      { o with remaining := (e, r) :: o.remaining }
    else if r.isStale now 1 then
      let o := processShootRequests now rest
      { o with staleDelta := o.staleDelta + 1 }
    else
      let o := processShootRequests now rest
      { o with processedDelta := o.processedDelta + 1,
               createdFor := e :: o.createdFor }

/-! ## Collision detection (src/game/ecs/systems/CollisionSystem.cpp and
  src/game/ecs/components/CollisionResult.cpp)

Positions and sizes are rationals.  The CollisionResult record keeps
the entity pair, the contact point (midpoint of the two centers, exact
over the rationals) and the owner-relative other entity; the contact
normal of the source normalises the center-to-center vector with sqrt,
which has no exact rational value and is not referenced by anything
verified here, so the record carries the unnormalised direction
instead.  The world holds the CollisionSystem tracked list plus the
per-entity Transform, Sprite and CollisionResult component stores. -/

structure Transform where
  posX : ℚ
  posY : ℚ
deriving DecidableEq, Repr

structure Sprite where
  width : ℚ
  height : ℚ
deriving DecidableEq, Repr

structure CollisionRecord where
  entityA : Nat
  entityB : Nat
  pointX : ℚ
  pointY : ℚ
  dirX : ℚ
  dirY : ℚ
  otherEntity : Nat
deriving DecidableEq, Repr

structure CollisionResult where
  collisions : List CollisionRecord
  processed : Bool
  frameCount : Nat
  enabled : Bool
deriving DecidableEq, Repr

namespace CollisionResult

/-- CollisionResult::clearCollisions. -/
def clearCollisions (c : CollisionResult) : CollisionResult :=
  { c with collisions := [], processed := false, frameCount := c.frameCount + 1 }

/-- CollisionResult::addCollision for the component owned by owner:
    append a record tagged with the other participant. -/
def addCollision (c : CollisionResult) (owner a b : Nat) (px py dx dy : ℚ) :
    CollisionResult :=
  { c with
    collisions := c.collisions ++
      [{ entityA := a, entityB := b, pointX := px, pointY := py,
         dirX := dx, dirY := dy,
         otherEntity := if b == owner then a else b }]
    processed := false }

end CollisionResult

structure CollisionWorld where
  tracked : List Nat
  transform : Nat → Option Transform
  sprite : Nat → Option Sprite
  results : Nat → Option CollisionResult

/-- Point update of the CollisionResult store. -/
def CollisionWorld.setResult (w : CollisionWorld) (e : Nat)
    (r : CollisionResult) : CollisionWorld :=
  { w with results := fun n => if n == e then some r else w.results n }

/-- CollisionSystem::checkCollision: null-checked AABB overlap test on
    the two entities' Transform and Sprite components. -/
def checkCollision (w : CollisionWorld) (a b : Nat) : Bool :=
  match w.transform a, w.sprite a, w.transform b, w.sprite b with
  | some ta, some sa, some tb, some sb =>
    decide (ta.posX < tb.posX + sb.width) &&
    decide (ta.posX + sa.width > tb.posX) &&
    decide (ta.posY < tb.posY + sb.height) &&
    decide (ta.posY + sa.height > tb.posY)
  | _, _, _, _ => false

/-- CollisionSystem::calculateCollisionInfo, contact point part: the
    midpoint of the two sprite centers (calculateCollisionInfo is only
    called after checkCollision succeeded, so the components exist; the
    fallback returns zeros). -/
def calculateCollisionPoint (w : CollisionWorld) (a b : Nat) : ℚ × ℚ :=
  match w.transform a, w.sprite a, w.transform b, w.sprite b with
  | some ta, some sa, some tb, some sb =>
    let cax := ta.posX + sa.width / 2
    let cay := ta.posY + sa.height / 2
    let cbx := tb.posX + sb.width / 2
    let cby := tb.posY + sb.height / 2
    ((cax + cbx) / 2, (cay + cby) / 2)
  | _, _, _, _ => (0, 0)

/-- The center-to-center direction that the source normalises into the
    contact normal. -/
def calculateCollisionDir (w : CollisionWorld) (a b : Nat) : ℚ × ℚ :=
  match w.transform a, w.sprite a, w.transform b, w.sprite b with
  | some ta, some sa, some tb, some sb =>
    let cax := ta.posX + sa.width / 2
    let cay := ta.posY + sa.height / 2
    let cbx := tb.posX + sb.width / 2
    let cby := tb.posY + sb.height / 2
    (cbx - cax, cby - cay)
  | _, _, _, _ => (0, 0)

/-- CollisionSystem::ensureCollisionResultComponent: lazily create a
    fresh (enabled, empty) CollisionResult when the entity has none. -/
def ensureCollisionResultComponent (w : CollisionWorld) (e : Nat) :
    CollisionWorld :=
  match w.results e with
  | some _ => w
  | none =>
    w.setResult e { collisions := [], processed := false, frameCount := 0, enabled := true }

/-- One guarded append of CollisionSystem::storeCollisionResult: add
    the (a, b) collision record to owner's CollisionResult when that
    component exists and is enabled. -/
def addRecordTo (w : CollisionWorld) (owner a b : Nat) (pt dir : ℚ × ℚ) :
    CollisionWorld :=
  match w.results owner with
  | some r =>
    if r.enabled then
      w.setResult owner (r.addCollision owner a b pt.1 pt.2 dir.1 dir.2)
    else w
  | none => w

/-- CollisionSystem::storeCollisionResult: ensure both participants
    have a CollisionResult, then append the record to each one that is
    enabled. -/
def storeCollisionResult (w : CollisionWorld) (a b : Nat) : CollisionWorld :=
  let w2 := ensureCollisionResultComponent (ensureCollisionResultComponent w a) b
  let pt := calculateCollisionPoint w2 a b
  let dir := calculateCollisionDir w2 a b
  addRecordTo (addRecordTo w2 a a b pt dir) b a b pt dir

/-- One step of CollisionSystem::clearCollisionResults: clear entity
    e's records when its CollisionResult exists and is enabled. -/
def clearResultsStep (acc : CollisionWorld) (e : Nat) : CollisionWorld :=
  match acc.results e with
  | some r => if r.enabled then acc.setResult e r.clearCollisions else acc
  | none => acc

/-- The loop of CollisionSystem::clearCollisionResults over the tracked
    list. -/
def clearResultsPass : List Nat → CollisionWorld → CollisionWorld
  | [], acc => acc
  | e :: rest, acc => clearResultsPass rest (clearResultsStep acc e)

/-- CollisionSystem::clearCollisionResults: clear the record list of
    every tracked entity whose CollisionResult exists and is enabled. -/
def clearCollisionResults (w : CollisionWorld) : CollisionWorld :=
  clearResultsPass w.tracked w

/-- Inner loop of CollisionSystem::update: test entity a against every
    later entity and store the detected collisions. -/
def detectAgainst (w : CollisionWorld) (a : Nat) :
    List Nat → CollisionWorld
  | [] => w
  | b :: rest =>
    detectAgainst (if checkCollision w a b then storeCollisionResult w a b else w) a rest

/-- Outer loop of CollisionSystem::update: all unordered pairs in list
    order (indices i strictly before j). -/
def detectPairs (w : CollisionWorld) : List Nat → CollisionWorld
  | [] => w
  | a :: rest => detectPairs (detectAgainst w a rest) rest

/-- CollisionSystem::update: clear the previous results of the tracked
    entities, then run pairwise detection over the tracked snapshot. -/
def collisionUpdate (w : CollisionWorld) : CollisionWorld :=
  detectPairs (clearCollisionResults w) w.tracked

/-- Whether owner's CollisionResult currently holds a record tagged
    with the given other participant. -/
def hasRecordReferencing (w : CollisionWorld) (owner other : Nat) : Bool :=
  match w.results owner with
  | some r => r.collisions.any (fun rec => rec.otherEntity == other)
  | none => false

/-- The collision pass never touches geometry: tracked list, Transform
    store and Sprite store agree with the starting world. -/
def sameGeom (w0 w : CollisionWorld) : Prop :=
  w.tracked = w0.tracked ∧ w.transform = w0.transform ∧ w.sprite = w0.sprite

/-- The entity's CollisionResult, if any, is enabled. -/
def resultOk (w : CollisionWorld) (e : Nat) : Prop :=
  ∀ r, w.results e = some r → r.enabled = true

/-- The entity's CollisionResult, if any and enabled, holds no
    records. -/
def noStaleAt (w : CollisionWorld) (e : Nat) : Prop :=
  ∀ r, w.results e = some r → r.enabled = true → r.collisions = []

/-- Every record held by a tracked, enabled CollisionResult of w comes
    from a pair of tracked entities overlapping in w0. -/
def recordsJustified (w0 w : CollisionWorld) : Prop :=
  ∀ e ∈ w0.tracked, ∀ r, w.results e = some r → r.enabled = true →
    ∀ rec ∈ r.collisions,
      rec.entityA ∈ w0.tracked ∧ rec.entityB ∈ w0.tracked ∧
      checkCollision w0 rec.entityA rec.entityB = true

/-! ## Expired-entities cleanup
  (src/game/ecs/systems/ExpiredEntitiesSystem.cpp and
  src/game/ecs/components/DestroyRequest.cpp)

The world carries the cleanup system's own tracked list (entities with
an Expirable component), every registered system's tracked list (the
fan-out targets of SystemManager::onEntityDestroyed), and the Expirable
and DestroyRequest component stores.  cleanupEntities additionally
produces the ordered trace of destroy notifications and component
strips so the notify-before-strip ordering is observable. -/

structure DestroyRequest where
  reason : String
  delay : ℚ
  processed : Bool
  timestamp : ℚ
deriving DecidableEq, Repr

namespace DestroyRequest

/-- DestroyRequest::getElapsedTime at clock reading now. -/
def getElapsedTime (d : DestroyRequest) (now : ℚ) : ℚ :=
  now - d.timestamp

/-- DestroyRequest::isReadyForDestruction: immediate when the delay is
    non-positive, otherwise once the delay has elapsed. -/
def isReadyForDestruction (d : DestroyRequest) (now : ℚ) : Bool :=
  if d.delay ≤ 0 then true
  else d.getElapsedTime now ≥ d.delay

/-- DestroyRequest::markProcessed. -/
def markProcessed (d : DestroyRequest) : DestroyRequest :=
  { d with processed := true }

end DestroyRequest

structure EESWorld where
  tracked : List Nat
  systems : List SysState
  expirableStore : Nat → Option Bool
  destroyStore : Nat → Option DestroyRequest

inductive CleanupAction where
  | notifyDestroyed (e : Nat)
  | removeAllComponents (e : Nat)
deriving DecidableEq, Repr

/-- The entity sweep of ExpiredEntitiesSystem::findEntitiesWithComponent:
    every entity tracked by any registered system, each id once (the
    source collects them into an unordered_set). -/
def allKnownEntities (w : EESWorld) : List Nat :=
  (w.systems.foldl (fun acc s => acc ++ s.entities) []).dedup

/-- ExpiredEntitiesSystem::processDestroyRequests: queue every entity
    whose unprocessed DestroyRequest is ready, marking the request
    processed in the store as it goes. -/
def processDestroyRequests (now : ℚ) :
    List Nat → EESWorld → List (Nat × String) → EESWorld × List (Nat × String)
  | [], w, queue => (w, queue)
  | e :: rest, w, queue =>
    match w.destroyStore e with
    | none => processDestroyRequests now rest w queue
    | some d =>
      if d.processed then processDestroyRequests now rest w queue
      else if d.isReadyForDestruction now then
        processDestroyRequests now rest
          { w with destroyStore := fun n => if n == e then some d.markProcessed else w.destroyStore n }
          (queue ++ [(e, "request:" ++ d.reason)])
      else processDestroyRequests now rest w queue

/-- The loop body of ExpiredEntitiesSystem::processTtlExpiration:
    queue entity e when its Expirable flag is set, unless an entity
    with the same id is already queued. -/
def ttlStep (w : EESWorld) (q : List (Nat × String)) (e : Nat) :
    List (Nat × String) :=
  match w.expirableStore e with
  | some true =>
    if q.any (fun m => m.1 == e) then q else q ++ [(e, "ttl:expired")]
  | _ => q

/-- The loop of ExpiredEntitiesSystem::processTtlExpiration over the
    system's tracked list. -/
def ttlPass (w : EESWorld) : List Nat → List (Nat × String) → List (Nat × String)
  | [], q => q
  | e :: rest, q => ttlPass w rest (ttlStep w q e)

/-- ExpiredEntitiesSystem::processTtlExpiration: queue every tracked
    entity whose Expirable flag is set, deduplicated against the queue
    built so far. -/
def processTtlExpiration (w : EESWorld) (queue : List (Nat × String)) :
    List (Nat × String) :=
  ttlPass w w.tracked queue

/-- ExpiredEntitiesSystem::cleanupEntities: for each queued entity, in
    order, fan out onEntityDestroyed to every system (each removes the
    entity from its tracked list) and then strip all of its components,
    emitting both steps into the trace. -/
def cleanupEntities : List (Nat × String) → EESWorld → EESWorld × List CleanupAction
  | [], w => (w, [])
  | m :: rest, w =>
    let w1 :=
      { w with
        systems := w.systems.map (fun s => s.removeEntity m.1)
        expirableStore := fun n => if n == m.1 then none else w.expirableStore n
        destroyStore := fun n => if n == m.1 then none else w.destroyStore n }
    let c := cleanupEntities rest w1
    (c.1, CleanupAction.notifyDestroyed m.1 :: CleanupAction.removeAllComponents m.1 :: c.2)

/-- The cleanup trace notifies systems of the destruction of entity e
    strictly before stripping its components: the two actions occur
    back to back somewhere in the trace. -/
def notifyThenStrip (e : Nat) (trace : List CleanupAction) : Prop :=
  ∃ s t, trace =
    s ++ [CleanupAction.notifyDestroyed e, CleanupAction.removeAllComponents e] ++ t

/-- ExpiredEntitiesSystem::update at clock reading now: destroy
    requests first, then TTL expiry, then the cleanup pass.  Returns
    the final world, the queue that was cleaned up, and the cleanup
    trace. -/
def eesUpdate (now : ℚ) (w : EESWorld) :
    EESWorld × List (Nat × String) × List CleanupAction :=
  let scan := allKnownEntities w
  let p := processDestroyRequests now scan w []
  let queue := processTtlExpiration p.1 p.2
  let c := cleanupEntities queue p.1
  (c.1, queue, c.2)

/-! ## Concrete instances used by witnesses and counterexamples -/

/-- A round state in mid-game with a beatable high score. -/
def demoGallery : ShootingGalleryState :=
  { state := GameState.PLAYING, score := 5, highScore := 3,
    timeRemaining := 1/2, shotsFired := 4, targetsHit := 2,
    highScoreSaved := false }

/-- A fresh (not hit, not expired) projectile-target encounter whose
    target is worth -5 points. -/
def hitCexContext : HitContext :=
  { projectileExpirable := some false, targetExpirable := some false,
    target := { pointValue := -5, targetType := "regular", isHit := false },
    gallery := { state := GameState.PLAYING, score := 0, highScore := 0,
                 timeRemaining := 60, shotsFired := 3, targetsHit := 0,
                 highScoreSaved := false } }

/-- A fresh encounter with a 10-point target. -/
def hitWitnessContext : HitContext :=
  { projectileExpirable := some false, targetExpirable := some false,
    target := { pointValue := 10, targetType := "regular", isHit := false },
    gallery := { state := GameState.PLAYING, score := 0, highScore := 0,
                 timeRemaining := 60, shotsFired := 3, targetsHit := 0,
                 highScoreSaved := false } }

/-- An encounter with an already-hit target. -/
def hitGuardContext : HitContext :=
  { projectileExpirable := some false, targetExpirable := some false,
    target := { pointValue := 10, targetType := "regular", isHit := true },
    gallery := { state := GameState.PLAYING, score := 10, highScore := 10,
                 timeRemaining := 60, shotsFired := 3, targetsHit := 1,
                 highScoreSaved := true } }

/-- Component store after entity 7 received component type 0 only. -/
def demoStoreA : Nat → Nat → Bool := fun e t => e == 7 && t == 0

/-- Component store after entity 7 received component types 0 and 1. -/
def demoStoreAB : Nat → Nat → Bool := fun e t => e == 7 && (t == 0 || t == 1)

/-- A system tracked list holding two unrelated entities. -/
def demoSys : SysState := { entities := [3, 4] }

/-- A component store holding one unrelated entry. -/
def demoComponentStore : List ((Nat × Nat) × Int) := [((0, 1), 7)]

/-- An unprocessed shoot request created at game-clock time 0. -/
def demoShootRequest : ShootRequest :=
  { posX := 1, posY := 2, processed := false, timestamp := 0 }

/-- The snapshot holding just the demo shoot request, on entity 3. -/
def demoShootRequests : List (Nat × ShootRequest) :=
  [(3, demoShootRequest)]

/-- A leftover record from an earlier pass, held by entity 0. -/
def staleDemoRecord : CollisionRecord :=
  { entityA := 0, entityB := 1, pointX := 6, pointY := 5,
    dirX := 2, dirY := 0, otherEntity := 1 }

/-- Two tracked, non-overlapping entities where entity 0 still holds a
    stale record inside a disabled CollisionResult. -/
def staleCexWorld : CollisionWorld :=
  { tracked := [0, 1]
    transform := fun n =>
      if n == 0 then some { posX := 0, posY := 0 }
      else if n == 1 then some { posX := 100, posY := 0 }
      else none
    sprite := fun n =>
      if n == 0 || n == 1 then some { width := 10, height := 10 } else none
    results := fun n =>
      if n == 0 then
        some { collisions := [staleDemoRecord], processed := false,
               frameCount := 1, enabled := false }
      else none }

/-- Two tracked, overlapping entities where entity 0 carries a disabled
    (empty) CollisionResult. -/
def disabledCexWorld : CollisionWorld :=
  { tracked := [0, 1]
    transform := fun n =>
      if n == 0 then some { posX := 0, posY := 0 }
      else if n == 1 then some { posX := 2, posY := 0 }
      else none
    sprite := fun n =>
      if n == 0 || n == 1 then some { width := 10, height := 10 } else none
    results := fun n =>
      if n == 0 then
        some { collisions := [], processed := false,
               frameCount := 0, enabled := false }
      else none }

/-- Two tracked, overlapping entities, entity 0 with an enabled
    CollisionResult holding a leftover record and entity 1 without
    one. -/
def overlapDemoWorld : CollisionWorld :=
  { tracked := [0, 1]
    transform := fun n =>
      if n == 0 then some { posX := 0, posY := 0 }
      else if n == 1 then some { posX := 2, posY := 0 }
      else none
    sprite := fun n =>
      if n == 0 || n == 1 then some { width := 10, height := 10 } else none
    results := fun n =>
      if n == 0 then
        some { collisions := [staleDemoRecord], processed := true,
               frameCount := 0, enabled := true }
      else none }

/-- A cleanup-system world: entity 7 is tracked by two systems, is
    expired, and also carries a ready immediate DestroyRequest. -/
def eesDemoWorld : EESWorld :=
  { tracked := [7]
    systems := [{ entities := [7, 2] }, { entities := [7] }]
    expirableStore := fun n => if n == 7 then some true else none
    destroyStore := fun n =>
      if n == 7 then
        some { reason := "hit", delay := 0, processed := false, timestamp := 0 }
      else none }

/-- Two tracked, overlapping entities with no CollisionResult
    components yet. -/
def cleanDemoWorld : CollisionWorld :=
  { tracked := [0, 1]
    transform := fun n =>
      if n == 0 then some { posX := 0, posY := 0 }
      else if n == 1 then some { posX := 2, posY := 0 }
      else none
    sprite := fun n =>
      if n == 0 || n == 1 then some { width := 10, height := 10 } else none
    results := fun _ => none }

end Shooter

namespace Shooter

/-! ## Claim theorems -/

/-- C10: ShootingGalleryState::getAccuracy is total — with
    shotsFired ≤ 0 it returns 0 without dividing, and otherwise the
    guarded division is performed with a provably nonzero divisor, so
    the division-by-zero outcome (none) is unreachable for every
    state. -/
theorem claim_C10_accuracy_total (g : ShootingGalleryState) :
    g.getAccuracy =
      some (if g.shotsFired ≤ 0 then 0
            else (g.targetsHit : ℚ) / (g.shotsFired : ℚ) * 100) := by
  unfold ShootingGalleryState.getAccuracy
  by_cases h : g.shotsFired ≤ 0
  · simp [h]
  · have hne : (g.shotsFired : ℚ) ≠ 0 := by
      have : g.shotsFired ≠ 0 := by omega
      exact_mod_cast this
    simp [h, ShootingGalleryState.divChecked, hne]

/-- C8: from PLAYING with 0 < timeRemaining ≤ deltaTime, a single
    updateTimer call enters GAME_OVER, and entering GAME_OVER updates
    and persists the high score whenever the score beats it. -/
theorem claim_C8_round_timeout (g : ShootingGalleryState) (dt : ℚ)
    (hst : g.state = GameState.PLAYING)
    (hpos : 0 < g.timeRemaining) (hdt : g.timeRemaining ≤ dt) :
    (g.updateTimer dt).state = GameState.GAME_OVER ∧
    (g.score > g.highScore →
      (g.updateTimer dt).highScore = g.score ∧
      (g.updateTimer dt).highScoreSaved = true) := by
  have hdt0 : (0:ℚ) < dt := lt_of_lt_of_le hpos hdt
  have hcond : (g.isPlaying && decide (dt > 0)) = true := by
    simp [ShootingGalleryState.isPlaying, hst, hdt0]
  have hmax : max 0 (g.timeRemaining - dt) = 0 := max_eq_left (by linarith)
  unfold ShootingGalleryState.updateTimer
  simp only [hcond, if_true, hmax]
  rw [if_pos (le_refl (0:ℚ))]
  unfold ShootingGalleryState.endGame
  by_cases hs : g.score > g.highScore
  · simp [hs]
  · simp [hs]

/-- C8 witness: the demo round (0.5 s remaining, score 5 over high
    score 3) advanced by 0.6 s in one call. -/
theorem claim_C8_round_timeout_witness :
    (demoGallery.updateTimer (3/5)).state = GameState.GAME_OVER ∧
    (demoGallery.updateTimer (3/5)).highScore = 5 ∧
    (demoGallery.updateTimer (3/5)).highScoreSaved = true :=
  ⟨(claim_C8_round_timeout demoGallery (3/5) rfl (by norm_num [demoGallery])
      (by norm_num [demoGallery])).1,
   (claim_C8_round_timeout demoGallery (3/5) rfl (by norm_num [demoGallery])
      (by norm_num [demoGallery])).2 (by norm_num [demoGallery])⟩

/-- C1 counterexample: in GameWorld::initialize the CollisionSystem is
    registered at index 7, after both GameStateSystem (index 2) and
    ProjectileSystem (index 6), so the producer-before-consumer
    registration the claim asserts does not hold for CollisionResult. -/
theorem claim_C1_cex :
    ¬ (regIndex SystemId.collision < regIndex SystemId.gameState ∧
       regIndex SystemId.collision < regIndex SystemId.projectile) := by
  decide

/-- C1 amended: the constructed game world registers CollisionSystem
    after GameStateSystem and ProjectileSystem (those consumers read the
    previous frame's CollisionResult components), while
    ExpiredEntitiesSystem is registered after every registered system
    that marks entities Expirable (DuckMovementSystem, ProjectileSystem)
    or creates DestroyRequests (none in this codebase). -/
theorem claim_C1_registration_order :
    regIndex SystemId.gameState < regIndex SystemId.collision ∧
    regIndex SystemId.projectile < regIndex SystemId.collision ∧
    (registeredSystems.all fun s =>
      !(marksExpirable s || createsDestroyRequest s) ||
        decide (regIndex s < regIndex SystemId.expiredEntities)) = true := by
  decide

/-- C7 counterexample: a fresh (not-hit, not-expired) collision with a
    target of point value -5 leaves the score unchanged — addScore
    ignores non-positive point totals — so the handler does not add
    exactly the target's point value to the round score. -/
theorem claim_C7_cex :
    hitCexContext.projectileExpirable = some false ∧
    hitCexContext.targetExpirable = some false ∧
    hitCexContext.target.isHit = false ∧
    (handleProjectileTargetCollision hitCexContext).gallery.score ≠
      hitCexContext.gallery.score + hitCexContext.target.pointValue := by
  decide

/-- C7 amended: on a fresh hit (target not hit, neither entity already
    expired) the handler marks the target hit, adds the point value to
    the round score when it is positive (non-positive values are
    ignored by addScore), and marks expired whichever of the two
    entities actually holds an Expirable component; when the target was
    already hit or either entity already expired, the whole state is
    returned unchanged, so a target is never scored twice. -/
theorem claim_C7_hit_handling (c : HitContext) :
    ((c.projectileExpirable ≠ some true) → (c.targetExpirable ≠ some true) →
      c.target.isHit = false →
      ((handleProjectileTargetCollision c).target.isHit = true ∧
       (handleProjectileTargetCollision c).gallery.score =
         (if c.target.pointValue > 0 then c.gallery.score + c.target.pointValue
          else c.gallery.score) ∧
       (handleProjectileTargetCollision c).projectileExpirable =
         c.projectileExpirable.map (fun _ => true) ∧
       (handleProjectileTargetCollision c).targetExpirable =
         c.targetExpirable.map (fun _ => true))) ∧
    ((c.projectileExpirable = some true ∨ c.targetExpirable = some true ∨
        c.target.isHit = true) →
      handleProjectileTargetCollision c = c) := by
  constructor
  · intro h1 h2 h3
    have hp : c.projectileExpirable.getD false = false := by
      cases hpe : c.projectileExpirable with
      | none => rfl
      | some v =>
        cases v with
        | false => rfl
        | true => exact absurd hpe h1
    have ht : c.targetExpirable.getD false = false := by
      cases hte : c.targetExpirable with
      | none => rfl
      | some v =>
        cases v with
        | false => rfl
        | true => exact absurd hte h2
    have hred : handleProjectileTargetCollision c =
        { projectileExpirable := c.projectileExpirable.map (fun _ => true)
          targetExpirable := c.targetExpirable.map (fun _ => true)
          target := c.target.markAsHit
          gallery := c.gallery.addScore c.target.pointValue } := by
      unfold handleProjectileTargetCollision
      rw [hp, ht]
      simp [h3, Target.markAsHit]
    rw [hred]
    refine ⟨by simp [Target.markAsHit], ?_, rfl, rfl⟩
    show (c.gallery.addScore c.target.pointValue).score = _
    unfold ShootingGalleryState.addScore
    by_cases hv : c.target.pointValue > 0
    · by_cases hh : c.gallery.score + c.target.pointValue > c.gallery.highScore <;>
        simp [hv, hh]
    · simp [hv]
  · intro h
    rcases h with h | h | h
    · unfold handleProjectileTargetCollision
      rw [h]
      simp
    · unfold handleProjectileTargetCollision
      rw [h]
      simp
    · unfold handleProjectileTargetCollision
      cases hg : (c.projectileExpirable.getD false || c.targetExpirable.getD false) <;>
        simp [hg, h]

/-- C7 witness: the handler applied to the fresh 10-point encounter and
    to an already-hit encounter. -/
theorem claim_C7_hit_handling_witness :
    (handleProjectileTargetCollision hitWitnessContext).target.isHit = true ∧
    handleProjectileTargetCollision hitGuardContext = hitGuardContext :=
  ⟨((claim_C7_hit_handling hitWitnessContext).1 (by decide) (by decide) rfl).1,
   (claim_C7_hit_handling hitGuardContext).2 (Or.inr (Or.inr rfl))⟩

/-- C5: the notification protocol on a system requiring component types
    a and b: with only a present the entity is not tracked; once both
    are present it is tracked exactly once and repeated add
    notifications do not duplicate it; after a destroy notification it
    is absent; and a second destroy notification changes nothing. -/
theorem claim_C5_membership_protocol (a b e : Nat)
    (storeA storeAB : Nat → Nat → Bool) (s0 : SysState)
    (h0 : e ∉ s0.entities)
    (hA1 : storeA e a = true) (hA2 : storeA e b = false)
    (hB1 : storeAB e a = true) (hB2 : storeAB e b = true) :
    onComponentAdded [a, b] storeA e s0 = s0 ∧
    (onComponentAdded [a, b] storeAB e s0).entities.count e = 1 ∧
    onComponentAdded [a, b] storeAB e (onComponentAdded [a, b] storeAB e s0) =
      onComponentAdded [a, b] storeAB e s0 ∧
    e ∉ ((onComponentAdded [a, b] storeAB e s0).removeEntity e).entities ∧
    ((onComponentAdded [a, b] storeAB e s0).removeEntity e).removeEntity e =
      (onComponentAdded [a, b] storeAB e s0).removeEntity e := by
  have hreqA : hasRequiredComponents [a, b] storeA e = false := by
    simp [hasRequiredComponents, hA2]
  have hreqB : hasRequiredComponents [a, b] storeAB e = true := by
    simp [hasRequiredComponents, hB1, hB2]
  have hany0 : s0.entities.any (fun x => x == e) = false := by
    rw [List.any_eq_false]
    intro x hx
    simp only [beq_iff_eq]
    intro hxe
    exact h0 (hxe ▸ hx)
  have hs1 : onComponentAdded [a, b] storeAB e s0 =
      { entities := s0.entities ++ [e] } := by
    unfold onComponentAdded
    rw [hreqB]
    unfold SysState.addEntity
    rw [hany0]
    simp
  have hcount0 : s0.entities.count e = 0 := List.count_eq_zero.mpr h0
  have herase : (s0.entities ++ [e]).erase e = s0.entities := by
    rw [List.erase_append_right _ h0]
    simp
  refine ⟨?_, ?_, ?_, ?_, ?_⟩
  · unfold onComponentAdded
    rw [hreqA]
    simp
  · rw [hs1]
    simp [List.count_append, hcount0]
  · rw [hs1]
    unfold onComponentAdded
    rw [hreqB]
    unfold SysState.addEntity
    have : ({ entities := s0.entities ++ [e] } : SysState).entities.any
        (fun x => x == e) = true := by
      simp
    rw [this]
    simp
  · rw [hs1]
    unfold SysState.removeEntity
    simp only [herase]
    exact h0
  · rw [hs1]
    unfold SysState.removeEntity
    simp only [herase]
    rw [List.erase_of_not_mem h0]

/-- C5 witness: entity 7 against a system requiring component types 0
    and 1, starting from the demo tracked list. -/
theorem claim_C5_membership_protocol_witness :
    (onComponentAdded [0, 1] demoStoreAB 7 demoSys).entities.count 7 = 1 ∧
    7 ∉ ((onComponentAdded [0, 1] demoStoreAB 7 demoSys).removeEntity 7).entities :=
  ⟨(claim_C5_membership_protocol 0 1 7 demoStoreA demoStoreAB demoSys
      (by decide) rfl rfl rfl rfl).2.1,
   (claim_C5_membership_protocol 0 1 7 demoStoreA demoStoreAB demoSys
      (by decide) rfl rfl rfl rfl).2.2.2.1⟩

/-- Keys are untouched by the overwrite branch of addComponent, and a
    fresh key is appended by the insert branch, so well-formedness of
    the store (pairwise distinct (type, entity) keys) is preserved. -/
theorem addComponent_keys {α : Type} (tid eid : Nat) (v : α)
    (st : List ((Nat × Nat) × α)) (hwf : (st.map Prod.fst).Nodup) :
    ((addComponent tid eid v st).map Prod.fst).Nodup := by
  unfold addComponent
  split
  · have hkeys : (st.map fun p => if p.1 == (tid, eid) then (p.1, v) else p).map
        Prod.fst = st.map Prod.fst := by
      rw [List.map_map]
      apply List.map_congr_left
      intro p hp
      simp only [Function.comp_apply]
      split <;> rfl
    rw [hkeys]
    exact hwf
  · rename_i h
    have hnot : (tid, eid) ∉ st.map Prod.fst := by
      intro hmem
      rcases List.mem_map.mp hmem with ⟨p, hpmem, hpk⟩
      apply h
      rw [List.any_eq_true]
      exact ⟨p, hpmem, by simp [hpk]⟩
    rw [List.map_append]
    simp only [List.map_cons, List.map_nil]
    exact List.Nodup.append hwf (List.nodup_singleton _)
      (by simp [List.disjoint_singleton, hnot])

/-- Entries whose key differs from the added key pass through
    addComponent unchanged at the head. -/
theorem addComponent_cons_ne {α : Type} (tid eid : Nat) (v : α)
    (p : (Nat × Nat) × α) (rest : List ((Nat × Nat) × α))
    (hp : (p.1 == (tid, eid)) = false) :
    addComponent tid eid v (p :: rest) = p :: addComponent tid eid v rest := by
  unfold addComponent
  cases hany : rest.any (fun q => q.1 == (tid, eid)) <;>
    simp [List.any_cons, hp, hany]
  intro h
  rw [h] at hp
  simp at hp

/-- componentsFor skips a head entry with a different key. -/
theorem componentsFor_cons_ne {α : Type} (tid eid : Nat)
    (p : (Nat × Nat) × α) (l : List ((Nat × Nat) × α))
    (hp : (p.1 == (tid, eid)) = false) :
    componentsFor tid eid (p :: l) = componentsFor tid eid l := by
  simp [componentsFor, hp]

/-- After adding a component to a well-formed store, exactly that one
    instance is attached to the (type, entity) key. -/
theorem componentsFor_addComponent {α : Type} (tid eid : Nat) (v : α)
    (st : List ((Nat × Nat) × α)) (hwf : (st.map Prod.fst).Nodup) :
    componentsFor tid eid (addComponent tid eid v st) = [v] := by
  induction st with
  | nil => simp [addComponent, componentsFor]
  | cons p rest ih =>
    rw [List.map_cons, List.nodup_cons] at hwf
    by_cases hp : (p.1 == (tid, eid)) = true
    · have hk : p.1 = (tid, eid) := by simpa using hp
      have hrest : ∀ q ∈ rest, (q.1 == (tid, eid)) = false := by
        intro q hq
        have hqmem : q.1 ∈ rest.map Prod.fst := List.mem_map_of_mem _ hq
        have hne : q.1 ≠ (tid, eid) := by
          intro hqe
          exact hwf.1 (hk ▸ hqe ▸ hqmem)
        simpa using hne
      unfold addComponent
      have hany : (p :: rest).any (fun q => q.1 == (tid, eid)) = true := by
        simp [List.any_cons, hp]
      rw [hany]
      simp only [if_true, List.map_cons, hp, if_pos]
      unfold componentsFor
      rw [List.filter_cons_of_pos (by simpa using hp)]
      have hnilrest : (rest.map fun q => if q.1 == (tid, eid) then (q.1, v) else q).filter
          (fun q => q.1 == (tid, eid)) = [] := by
        rw [List.filter_eq_nil]
        intro x hx
        rcases List.mem_map.mp hx with ⟨q, hqmem, hqx⟩
        have hq := hrest q hqmem
        rw [hq] at hqx
        rw [← hqx]
        simp [hq]
      rw [hnilrest]
      simp
    · have hp' : (p.1 == (tid, eid)) = false := by
        simpa using hp
      rw [addComponent_cons_ne _ _ _ _ _ hp',
          componentsFor_cons_ne _ _ _ _ hp']
      exact ih hwf.2

/-- C9: adding a component of the same type twice to the same entity in
    a well-formed store leaves exactly one instance attached, holding
    the second call's value, and the store stays well-formed (the
    overwrite never faults — addComponent is total). -/
theorem claim_C9_overwrite {α : Type} (tid eid : Nat) (v1 v2 : α)
    (st : List ((Nat × Nat) × α)) (hwf : (st.map Prod.fst).Nodup) :
    componentsFor tid eid (addComponent tid eid v2 (addComponent tid eid v1 st)) = [v2] ∧
    ((addComponent tid eid v2 (addComponent tid eid v1 st)).map Prod.fst).Nodup :=
  ⟨componentsFor_addComponent _ _ _ _ (addComponent_keys _ _ _ _ hwf),
   addComponent_keys _ _ _ _ (addComponent_keys _ _ _ _ hwf)⟩

/-- C9 witness: type 2 added twice on entity 5 over the demo store. -/
theorem claim_C9_overwrite_witness :
    componentsFor 2 5 (addComponent 2 5 (9 : Int)
      (addComponent 2 5 (4 : Int) demoComponentStore)) = [9] :=
  (claim_C9_overwrite 2 5 4 9 demoComponentStore (by decide)).1

/-- The stale-request counter increment equals the number of
    unprocessed stale requests in the snapshot. -/
theorem processShootRequests_staleDelta (now : ℚ)
    (reqs : List (Nat × ShootRequest)) :
    (processShootRequests now reqs).staleDelta =
      reqs.countP (fun x => !x.2.processed && x.2.isStale now 1) := by
  induction reqs with
  | nil => rfl
  | cons f rest ih =>
    rcases f with ⟨e, r⟩
    by_cases hp : r.processed
    · simp [processShootRequests, hp, List.countP_cons, ih]
    · by_cases hs : r.isStale now 1 = true
      · simp [processShootRequests, hp, hs, List.countP_cons, ih]
      · simp [processShootRequests, hp, hs, List.countP_cons, ih]

/-- Surviving requests all come from the snapshot. -/
theorem processShootRequests_remaining_sub (now : ℚ)
    (reqs : List (Nat × ShootRequest)) :
    ∀ x ∈ (processShootRequests now reqs).remaining, x ∈ reqs := by
  induction reqs with
  | nil => intro x hx; cases hx
  | cons f rest ih =>
    rcases f with ⟨e, r⟩
    intro x hx
    by_cases hp : r.processed
    · simp only [processShootRequests, hp, if_true] at hx
      rcases List.mem_cons.mp hx with h | h
      · exact h ▸ List.mem_cons_self _ _
      · exact List.mem_cons_of_mem _ (ih x h)
    · by_cases hs : r.isStale now 1 = true
      · simp only [processShootRequests, hp, hs, if_false, if_true] at hx
        exact List.mem_cons_of_mem _ (ih x hx)
      · simp only [processShootRequests, hp, hs, if_false] at hx
        exact List.mem_cons_of_mem _ (ih x hx)

/-- Projectiles are only created for requesters in the snapshot. -/
theorem processShootRequests_created_sub (now : ℚ)
    (reqs : List (Nat × ShootRequest)) :
    ∀ y ∈ (processShootRequests now reqs).createdFor, y ∈ reqs.map Prod.fst := by
  induction reqs with
  | nil => intro y hy; cases hy
  | cons f rest ih =>
    rcases f with ⟨e, r⟩
    intro y hy
    by_cases hp : r.processed
    · simp only [processShootRequests, hp, if_true] at hy
      exact List.mem_cons_of_mem _ (ih y hy)
    · by_cases hs : r.isStale now 1 = true
      · simp only [processShootRequests, hp, hs, if_false, if_true] at hy
        exact List.mem_cons_of_mem _ (ih y hy)
      · simp only [processShootRequests, hp, hs, if_false] at hy
        rcases List.mem_cons.mp hy with h | h
        · exact h ▸ List.mem_cons_self _ _
        · exact List.mem_cons_of_mem _ (ih y h)

/-- C2: an entity whose unprocessed ShootRequest is older than 1 second
    on the game clock at update time has the request discarded: it is
    absent from the surviving requests, no projectile is created for
    that entity, and the stale-request counter increment counts each
    such request exactly once. -/
theorem claim_C2_stale_request (now : ℚ) (reqs : List (Nat × ShootRequest))
    (e : Nat) (r : ShootRequest)
    (hmem : (e, r) ∈ reqs) (hnodup : (reqs.map Prod.fst).Nodup)
    (hunproc : r.processed = false) (hstale : r.getAge now > 1) :
    (∀ r', (e, r') ∉ (processShootRequests now reqs).remaining) ∧
    e ∉ (processShootRequests now reqs).createdFor ∧
    (processShootRequests now reqs).staleDelta =
      reqs.countP (fun x => !x.2.processed && x.2.isStale now 1) := by
  have hstaleb : r.isStale now 1 = true := by
    simp [ShootRequest.isStale, hstale]
  have key : ∀ l : List (Nat × ShootRequest), (e, r) ∈ l →
      (l.map Prod.fst).Nodup →
      (∀ r', (e, r') ∉ (processShootRequests now l).remaining) ∧
      e ∉ (processShootRequests now l).createdFor := by
    intro l
    induction l with
    | nil => intro h; cases h
    | cons f rest ih =>
      intro hm hn
      rw [List.map_cons, List.nodup_cons] at hn
      rcases f with ⟨e1, r1⟩
      rcases List.mem_cons.mp hm with hf | hrest
      · injection hf with he1 hr1
        subst he1
        subst hr1
        have hkeys : e ∉ rest.map Prod.fst := hn.1
        constructor
        · intro r' hmem'
          simp only [processShootRequests, hunproc, hstaleb, if_false,
            if_true] at hmem'
          exact hkeys (List.mem_map_of_mem Prod.fst
            (processShootRequests_remaining_sub now rest _ hmem'))
        · intro hmem'
          simp only [processShootRequests, hunproc, hstaleb, if_false,
            if_true] at hmem'
          exact hkeys (processShootRequests_created_sub now rest _ hmem')
      · have hne : e1 ≠ e := by
          intro h
          apply hn.1
          rw [h]
          exact List.mem_map.mpr ⟨(e, r), hrest, rfl⟩
        obtain ⟨IH1, IH2⟩ := ih hrest hn.2
        by_cases hp : r1.processed
        · constructor
          · intro r' hmem'
            simp only [processShootRequests, hp, if_true] at hmem'
            rcases List.mem_cons.mp hmem' with h | h
            · injection h with h1 h2
              exact hne h1.symm
            · exact IH1 r' h
          · intro hmem'
            simp only [processShootRequests, hp, if_true] at hmem'
            exact IH2 hmem'
        · by_cases hs : r1.isStale now 1 = true
          · constructor
            · intro r' hmem'
              simp only [processShootRequests, hp, hs, if_false, if_true] at hmem'
              exact IH1 r' hmem'
            · intro hmem'
              simp only [processShootRequests, hp, hs, if_false, if_true] at hmem'
              exact IH2 hmem'
          · constructor
            · intro r' hmem'
              simp only [processShootRequests, hp, hs, if_false] at hmem'
              exact IH1 r' hmem'
            · intro hmem'
              simp only [processShootRequests, hp, hs, if_false] at hmem'
              rcases List.mem_cons.mp hmem' with h | h
              · exact hne h.symm
              · exact IH2 h
  exact ⟨(key reqs hmem hnodup).1, (key reqs hmem hnodup).2,
    processShootRequests_staleDelta now reqs⟩

/-- C2 witness: entity 3's request from clock time 0 processed at clock
    time 1.5. -/
theorem claim_C2_stale_request_witness :
    (3, demoShootRequest) ∉ (processShootRequests (3/2) demoShootRequests).remaining ∧
    3 ∉ (processShootRequests (3/2) demoShootRequests).createdFor :=
  ⟨(claim_C2_stale_request (3/2) demoShootRequests 3 demoShootRequest
      (by simp [demoShootRequests]) (by simp [demoShootRequests])
      rfl (by norm_num [ShootRequest.getAge, demoShootRequest])).1 demoShootRequest,
   (claim_C2_stale_request (3/2) demoShootRequests 3 demoShootRequest
      (by simp [demoShootRequests]) (by simp [demoShootRequests])
      rfl (by norm_num [ShootRequest.getAge, demoShootRequest])).2.1⟩

/-- sameGeom is reflexive. -/
theorem sameGeom_refl (w : CollisionWorld) : sameGeom w w :=
  ⟨rfl, rfl, rfl⟩

/-- sameGeom composes. -/
theorem sameGeom_trans {w0 w1 w2 : CollisionWorld}
    (h1 : sameGeom w0 w1) (h2 : sameGeom w1 w2) : sameGeom w0 w2 :=
  ⟨h2.1.trans h1.1, h2.2.1.trans h1.2.1, h2.2.2.trans h1.2.2⟩

/-- setResult rewrites only the given entity's slot. -/
theorem setResult_results_self (w : CollisionWorld) (e : Nat) (r : CollisionResult) :
    (w.setResult e r).results e = some r := by
  simp [CollisionWorld.setResult]

/-- setResult leaves other entities' slots alone. -/
theorem setResult_results_other (w : CollisionWorld) (e : Nat) (r : CollisionResult)
    (n : Nat) (hne : n ≠ e) : (w.setResult e r).results n = w.results n := by
  have h : (n == e) = false := by simp [hne]
  show (if n == e then some r else w.results n) = w.results n
  rw [h]
  simp

/-- hasRecordReferencing through a present component. -/
theorem hasRecordReferencing_some {w : CollisionWorld} {o : Nat} {r : CollisionResult}
    (h : w.results o = some r) (t : Nat) :
    hasRecordReferencing w o t = r.collisions.any (fun rec => rec.otherEntity == t) := by
  unfold hasRecordReferencing
  rw [h]

/-- addCollision preserves the enable flag. -/
theorem addCollision_enabled (r : CollisionResult) (owner a b : Nat) (px py dx dy : ℚ) :
    (r.addCollision owner a b px py dx dy).enabled = r.enabled := rfl

/-- clearCollisions preserves the enable flag. -/
theorem clearCollisions_enabled (r : CollisionResult) :
    r.clearCollisions.enabled = r.enabled := rfl

/-- ensureCollisionResultComponent only touches the results store. -/
theorem ensure_sameGeom (w : CollisionWorld) (e : Nat) :
    sameGeom w (ensureCollisionResultComponent w e) := by
  unfold ensureCollisionResultComponent
  cases w.results e
  · exact ⟨rfl, rfl, rfl⟩
  · exact ⟨rfl, rfl, rfl⟩

/-- ensureCollisionResultComponent leaves other entities' slots alone. -/
theorem ensure_results_other (w : CollisionWorld) (e n : Nat) (hne : n ≠ e) :
    (ensureCollisionResultComponent w e).results n = w.results n := by
  unfold ensureCollisionResultComponent
  cases w.results e
  · exact setResult_results_other _ _ _ _ hne
  · rfl

/-- ensureCollisionResultComponent keeps absent-or-enabled results
    absent-or-enabled. -/
theorem ensure_resultOk (w : CollisionWorld) (e n : Nat) (h : resultOk w n) :
    resultOk (ensureCollisionResultComponent w e) n := by
  unfold ensureCollisionResultComponent
  cases hres : w.results e with
  | some r => exact h
  | none =>
    intro r' hr'
    by_cases hne : n = e
    · subst hne
      rw [setResult_results_self] at hr'
      injection hr' with hinj
      rw [← hinj]
    · rw [setResult_results_other _ _ _ _ hne] at hr'
      exact h r' hr'

/-- After ensuring, the entity holds an enabled CollisionResult when it
    held none or an enabled one before. -/
theorem ensure_someEnabled (w : CollisionWorld) (e : Nat) (h : resultOk w e) :
    ∃ r, (ensureCollisionResultComponent w e).results e = some r ∧ r.enabled = true := by
  unfold ensureCollisionResultComponent
  cases hres : w.results e with
  | some r => exact ⟨r, hres, h r hres⟩
  | none => exact ⟨_, setResult_results_self _ _ _, rfl⟩

/-- addRecordTo only touches the results store. -/
theorem addRecordTo_sameGeom (w : CollisionWorld) (owner a b : Nat) (pt dir : ℚ × ℚ) :
    sameGeom w (addRecordTo w owner a b pt dir) := by
  unfold addRecordTo
  cases w.results owner with
  | none => exact sameGeom_refl w
  | some r =>
    show sameGeom w (if r.enabled = true then
      w.setResult owner (r.addCollision owner a b pt.1 pt.2 dir.1 dir.2) else w)
    by_cases hen : r.enabled = true
    · rw [if_pos hen]
      exact ⟨rfl, rfl, rfl⟩
    · rw [if_neg hen]
      exact sameGeom_refl w

/-- addRecordTo leaves other entities' slots alone. -/
theorem addRecordTo_results_other (w : CollisionWorld) (owner a b : Nat)
    (pt dir : ℚ × ℚ) (n : Nat) (hne : n ≠ owner) :
    (addRecordTo w owner a b pt dir).results n = w.results n := by
  unfold addRecordTo
  cases w.results owner with
  | none => rfl
  | some r =>
    show (if r.enabled = true then
      w.setResult owner (r.addCollision owner a b pt.1 pt.2 dir.1 dir.2)
      else w).results n = w.results n
    by_cases hen : r.enabled = true
    · rw [if_pos hen]
      exact setResult_results_other _ _ _ _ hne
    · rw [if_neg hen]

/-- addRecordTo keeps absent-or-enabled results absent-or-enabled. -/
theorem addRecordTo_resultOk (w : CollisionWorld) (owner a b : Nat)
    (pt dir : ℚ × ℚ) (n : Nat) (h : resultOk w n) :
    resultOk (addRecordTo w owner a b pt dir) n := by
  unfold addRecordTo
  cases hres : w.results owner with
  | none => exact h
  | some r =>
    show resultOk (if r.enabled = true then
      w.setResult owner (r.addCollision owner a b pt.1 pt.2 dir.1 dir.2) else w) n
    by_cases hen : r.enabled = true
    · rw [if_pos hen]
      intro r' hr'
      by_cases hno : n = owner
      · subst hno
        rw [setResult_results_self] at hr'
        injection hr' with hinj
        rw [← hinj, addCollision_enabled]
        exact hen
      · rw [setResult_results_other _ _ _ _ hno] at hr'
        exact h r' hr'
    · rw [if_neg hen]
      exact h

/-- addRecordTo never drops existing records. -/
theorem addRecordTo_mono (w : CollisionWorld) (owner a b : Nat) (pt dir : ℚ × ℚ)
    (o t : Nat) (h : hasRecordReferencing w o t = true) :
    hasRecordReferencing (addRecordTo w owner a b pt dir) o t = true := by
  unfold addRecordTo
  cases hres : w.results owner with
  | none => exact h
  | some r =>
    show hasRecordReferencing (if r.enabled = true then
      w.setResult owner (r.addCollision owner a b pt.1 pt.2 dir.1 dir.2) else w) o t = true
    by_cases hen : r.enabled = true
    · rw [if_pos hen]
      by_cases ho : o = owner
      · subst ho
        rw [hasRecordReferencing_some hres] at h
        rw [hasRecordReferencing_some (setResult_results_self _ _ _)]
        unfold CollisionResult.addCollision
        simp only [List.any_append, h, Bool.true_or]
      · unfold hasRecordReferencing at h ⊢
        rw [setResult_results_other _ _ _ _ ho]
        exact h
    · rw [if_neg hen]
      exact h

/-- addRecordTo on a present, enabled component appends the record. -/
theorem addRecordTo_of_enabled (w : CollisionWorld) (owner a b : Nat)
    (pt dir : ℚ × ℚ) (r : CollisionResult)
    (hres : w.results owner = some r) (hen : r.enabled = true) :
    addRecordTo w owner a b pt dir =
      w.setResult owner (r.addCollision owner a b pt.1 pt.2 dir.1 dir.2) := by
  unfold addRecordTo
  rw [hres]
  exact if_pos hen

/-- checkCollision reads only the Transform and Sprite stores. -/
theorem checkCollision_congr (w0 w : CollisionWorld) (h : sameGeom w0 w) (a b : Nat) :
    checkCollision w a b = checkCollision w0 a b := by
  unfold checkCollision
  rw [h.2.1, h.2.2]

/-- The AABB overlap test is symmetric in its two entities. -/
theorem checkCollision_symm (w : CollisionWorld) (x y : Nat) :
    checkCollision w x y = checkCollision w y x := by
  unfold checkCollision
  cases w.transform x <;> cases w.sprite x <;> cases w.transform y <;> cases w.sprite y <;>
    simp only []
  case some.some.some.some ta sa tb sb =>
    rw [Bool.eq_iff_iff]
    simp only [Bool.and_eq_true]
    constructor
    · rintro ⟨⟨⟨h1, h2⟩, h3⟩, h4⟩
      exact ⟨⟨⟨h2, h1⟩, h4⟩, h3⟩
    · rintro ⟨⟨⟨h1, h2⟩, h3⟩, h4⟩
      exact ⟨⟨⟨h2, h1⟩, h4⟩, h3⟩

/-- storeCollisionResult only touches the results store. -/
theorem store_sameGeom (w : CollisionWorld) (a b : Nat) :
    sameGeom w (storeCollisionResult w a b) := by
  simp only [storeCollisionResult]
  exact sameGeom_trans
    (sameGeom_trans (ensure_sameGeom w a) (ensure_sameGeom _ b))
    (sameGeom_trans (addRecordTo_sameGeom _ _ _ _ _ _) (addRecordTo_sameGeom _ _ _ _ _ _))

/-- storeCollisionResult keeps absent-or-enabled results
    absent-or-enabled. -/
theorem store_resultOk (w : CollisionWorld) (a b n : Nat) (h : resultOk w n) :
    resultOk (storeCollisionResult w a b) n := by
  simp only [storeCollisionResult]
  exact addRecordTo_resultOk _ _ _ _ _ _ _
    (addRecordTo_resultOk _ _ _ _ _ _ _
      (ensure_resultOk _ _ _ (ensure_resultOk _ _ _ h)))

/-- Ensuring any entity preserves every present component. -/
theorem ensure_results_some (w : CollisionWorld) (e o : Nat) (r : CollisionResult)
    (h : w.results o = some r) :
    (ensureCollisionResultComponent w e).results o = some r := by
  unfold ensureCollisionResultComponent
  cases hres : w.results e with
  | some re => exact h
  | none =>
    by_cases hoe : o = e
    · subst hoe
      rw [h] at hres
      cases hres
    · rw [setResult_results_other _ _ _ _ hoe]
      exact h

/-- storeCollisionResult never drops existing records. -/
theorem store_mono (w : CollisionWorld) (a b o t : Nat)
    (h : hasRecordReferencing w o t = true) :
    hasRecordReferencing (storeCollisionResult w a b) o t = true := by
  simp only [storeCollisionResult]
  apply addRecordTo_mono
  apply addRecordTo_mono
  unfold hasRecordReferencing at h ⊢
  cases hres : w.results o with
  | none => rw [hres] at h; cases h
  | some r =>
    rw [ensure_results_some _ b o r (ensure_results_some w a o r hres)]
    rw [hres] at h
    exact h

/-- The heart of C4: when two distinct participants both have
    absent-or-enabled CollisionResults, storeCollisionResult leaves a
    record referencing the other participant on each of them. -/
theorem store_adds (w : CollisionWorld) (a b : Nat) (hab : a ≠ b)
    (ha : resultOk w a) (hb : resultOk w b) :
    hasRecordReferencing (storeCollisionResult w a b) a b = true ∧
    hasRecordReferencing (storeCollisionResult w a b) b a = true := by
  simp only [storeCollisionResult]
  generalize hW2 : ensureCollisionResultComponent (ensureCollisionResultComponent w a) b = w2
  obtain ⟨ra, hra, hraen⟩ : ∃ r, w2.results a = some r ∧ r.enabled = true := by
    rw [← hW2]
    obtain ⟨r, hr, hren⟩ := ensure_someEnabled w a ha
    exact ⟨r, ensure_results_some _ b a r hr, hren⟩
  obtain ⟨rb, hrb, hrben⟩ : ∃ r, w2.results b = some r ∧ r.enabled = true := by
    rw [← hW2]
    exact ensure_someEnabled _ b (ensure_resultOk _ _ _ hb)
  have hba : (b == a) = false := by simp [Ne.symm hab]
  rw [addRecordTo_of_enabled w2 a a b _ _ ra hra hraen]
  have hw3b : (w2.setResult a (ra.addCollision a a b
      (calculateCollisionPoint w2 a b).1 (calculateCollisionPoint w2 a b).2
      (calculateCollisionDir w2 a b).1 (calculateCollisionDir w2 a b).2)).results b
      = some rb := by
    rw [setResult_results_other _ _ _ _ (Ne.symm hab)]
    exact hrb
  constructor
  · apply addRecordTo_mono
    rw [hasRecordReferencing_some (setResult_results_self _ _ _)]
    unfold CollisionResult.addCollision
    rw [List.any_append]
    simp [hba]
  · rw [addRecordTo_of_enabled _ b a b _ _ rb hw3b hrben]
    rw [hasRecordReferencing_some (setResult_results_self _ _ _)]
    unfold CollisionResult.addCollision
    rw [List.any_append]
    simp

/-- One step of the inner detection loop. -/
theorem detectAgainst_cons (w : CollisionWorld) (a b : Nat) (rest : List Nat) :
    detectAgainst w a (b :: rest) =
      detectAgainst (if checkCollision w a b then storeCollisionResult w a b else w)
        a rest := rfl

/-- One step of the outer detection loop. -/
theorem detectPairs_cons (w : CollisionWorld) (x : Nat) (rest : List Nat) :
    detectPairs w (x :: rest) = detectPairs (detectAgainst w x rest) rest := rfl

/-- The inner detection loop only touches the results store. -/
theorem detectAgainst_sameGeom (a : Nat) (l : List Nat) :
    ∀ w : CollisionWorld, sameGeom w (detectAgainst w a l) := by
  induction l with
  | nil => intro w; exact sameGeom_refl w
  | cons b rest ih =>
    intro w
    rw [detectAgainst_cons]
    by_cases hc : checkCollision w a b = true
    · rw [if_pos hc]
      exact sameGeom_trans (store_sameGeom w a b) (ih _)
    · rw [if_neg hc]
      exact ih w

/-- The inner detection loop keeps absent-or-enabled results
    absent-or-enabled. -/
theorem detectAgainst_resultOk (a : Nat) (l : List Nat) (n : Nat) :
    ∀ w : CollisionWorld, resultOk w n → resultOk (detectAgainst w a l) n := by
  induction l with
  | nil => intro w h; exact h
  | cons b rest ih =>
    intro w h
    rw [detectAgainst_cons]
    by_cases hc : checkCollision w a b = true
    · rw [if_pos hc]
      exact ih _ (store_resultOk _ _ _ _ h)
    · rw [if_neg hc]
      exact ih _ h

/-- The inner detection loop never drops records. -/
theorem detectAgainst_mono (a : Nat) (l : List Nat) (o t : Nat) :
    ∀ w : CollisionWorld, hasRecordReferencing w o t = true →
      hasRecordReferencing (detectAgainst w a l) o t = true := by
  induction l with
  | nil => intro w h; exact h
  | cons b rest ih =>
    intro w h
    rw [detectAgainst_cons]
    by_cases hc : checkCollision w a b = true
    · rw [if_pos hc]
      exact ih _ (store_mono _ _ _ _ _ h)
    · rw [if_neg hc]
      exact ih _ h

/-- When the inner loop reaches an overlapping partner x of a, both
    ends receive a record referencing the other. -/
theorem detectAgainst_finds (w0 : CollisionWorld) (a x : Nat) (l : List Nat) :
    ∀ w : CollisionWorld, sameGeom w0 w → x ∈ l → a ≠ x →
      checkCollision w0 a x = true → resultOk w a → resultOk w x →
      hasRecordReferencing (detectAgainst w a l) a x = true ∧
      hasRecordReferencing (detectAgainst w a l) x a = true := by
  induction l with
  | nil =>
    intro w _ hx
    cases hx
  | cons c rest ih =>
    intro w hgeom hx hax hcheck hoka hokx
    rw [detectAgainst_cons]
    by_cases hxc : x = c
    · subst hxc
      have hcw : checkCollision w a x = true := by
        rw [checkCollision_congr w0 w hgeom]
        exact hcheck
      rw [if_pos hcw]
      have hadded := store_adds w a x hax hoka hokx
      exact ⟨detectAgainst_mono a rest a x _ hadded.1,
             detectAgainst_mono a rest x a _ hadded.2⟩
    · have hxrest : x ∈ rest := by
        rcases List.mem_cons.mp hx with h | h
        · exact absurd h hxc
        · exact h
      by_cases hc : checkCollision w a c = true
      · rw [if_pos hc]
        exact ih _ (sameGeom_trans hgeom (store_sameGeom w a c)) hxrest hax hcheck
          (store_resultOk _ _ _ _ hoka) (store_resultOk _ _ _ _ hokx)
      · rw [if_neg hc]
        exact ih _ hgeom hxrest hax hcheck hoka hokx

/-- The outer detection loop never drops records. -/
theorem detectPairs_mono (o t : Nat) (l : List Nat) :
    ∀ w : CollisionWorld, hasRecordReferencing w o t = true →
      hasRecordReferencing (detectPairs w l) o t = true := by
  induction l with
  | nil => intro w h; exact h
  | cons x rest ih =>
    intro w h
    rw [detectPairs_cons]
    exact ih _ (detectAgainst_mono x rest o t w h)

/-- The pairwise pass registers a record on both ends of every
    overlapping pair of listed entities whose CollisionResults are
    absent or enabled. -/
theorem detectPairs_finds (w0 : CollisionWorld) (l : List Nat) :
    ∀ (w : CollisionWorld) (a b : Nat), sameGeom w0 w → a ∈ l → b ∈ l → a ≠ b →
      checkCollision w0 a b = true → resultOk w a → resultOk w b →
      hasRecordReferencing (detectPairs w l) a b = true ∧
      hasRecordReferencing (detectPairs w l) b a = true := by
  induction l with
  | nil =>
    intro w a b _ ha
    cases ha
  | cons x rest ih =>
    intro w a b hgeom ha hb hab hcheck hoka hokb
    rw [detectPairs_cons]
    by_cases hax : a = x
    · subst hax
      have hbr : b ∈ rest := by
        rcases List.mem_cons.mp hb with h | h
        · exact absurd h.symm hab
        · exact h
      have hf := detectAgainst_finds w0 a b rest w hgeom hbr hab hcheck hoka hokb
      exact ⟨detectPairs_mono _ _ rest _ hf.1, detectPairs_mono _ _ rest _ hf.2⟩
    · by_cases hbx : b = x
      · subst hbx
        have har : a ∈ rest := by
          rcases List.mem_cons.mp ha with h | h
          · exact absurd h hax
          · exact h
        have hcheck' : checkCollision w0 b a = true := by
          rw [checkCollision_symm]
          exact hcheck
        have hf := detectAgainst_finds w0 b a rest w hgeom har (Ne.symm hab) hcheck'
          hokb hoka
        exact ⟨detectPairs_mono _ _ rest _ hf.2, detectPairs_mono _ _ rest _ hf.1⟩
      · have har : a ∈ rest := by
          rcases List.mem_cons.mp ha with h | h
          · exact absurd h hax
          · exact h
        have hbr : b ∈ rest := by
          rcases List.mem_cons.mp hb with h | h
          · exact absurd h hbx
          · exact h
        exact ih _ a b (sameGeom_trans hgeom (detectAgainst_sameGeom x rest w)) har hbr
          hab hcheck (detectAgainst_resultOk x rest a w hoka)
          (detectAgainst_resultOk x rest b w hokb)

/-- One step of the clearing loop. -/
theorem clearResultsPass_cons (e : Nat) (rest : List Nat) (acc : CollisionWorld) :
    clearResultsPass (e :: rest) acc = clearResultsPass rest (clearResultsStep acc e) := rfl

/-- One clearing step only touches the results store. -/
theorem clearStep_sameGeom (acc : CollisionWorld) (x : Nat) :
    sameGeom acc (clearResultsStep acc x) := by
  unfold clearResultsStep
  cases acc.results x with
  | none => exact sameGeom_refl acc
  | some r =>
    show sameGeom acc (if r.enabled = true then acc.setResult x r.clearCollisions else acc)
    by_cases hen : r.enabled = true
    · rw [if_pos hen]
      exact ⟨rfl, rfl, rfl⟩
    · rw [if_neg hen]
      exact sameGeom_refl acc

/-- The clearing loop only touches the results store. -/
theorem clearPass_sameGeom (l : List Nat) :
    ∀ acc : CollisionWorld, sameGeom acc (clearResultsPass l acc) := by
  induction l with
  | nil => intro acc; exact sameGeom_refl acc
  | cons e rest ih =>
    intro acc
    rw [clearResultsPass_cons]
    exact sameGeom_trans (clearStep_sameGeom acc e) (ih _)

/-- clearCollisionResults only touches the results store. -/
theorem clear_sameGeom (w : CollisionWorld) : sameGeom w (clearCollisionResults w) :=
  clearPass_sameGeom w.tracked w

/-- One clearing step keeps absent-or-enabled results
    absent-or-enabled. -/
theorem clearStep_resultOk (acc : CollisionWorld) (x n : Nat) (h : resultOk acc n) :
    resultOk (clearResultsStep acc x) n := by
  unfold clearResultsStep
  cases hres : acc.results x with
  | none => exact h
  | some r =>
    show resultOk (if r.enabled = true then acc.setResult x r.clearCollisions else acc) n
    by_cases hen : r.enabled = true
    · rw [if_pos hen]
      intro r' hr'
      by_cases hnx : n = x
      · subst hnx
        rw [setResult_results_self] at hr'
        injection hr' with hinj
        rw [← hinj, clearCollisions_enabled]
        exact hen
      · rw [setResult_results_other _ _ _ _ hnx] at hr'
        exact h r' hr'
    · rw [if_neg hen]
      exact h

/-- The clearing loop keeps absent-or-enabled results
    absent-or-enabled. -/
theorem clearPass_resultOk (l : List Nat) (n : Nat) :
    ∀ acc : CollisionWorld, resultOk acc n → resultOk (clearResultsPass l acc) n := by
  induction l with
  | nil => intro acc h; exact h
  | cons e rest ih =>
    intro acc h
    rw [clearResultsPass_cons]
    exact ih _ (clearStep_resultOk acc e n h)

/-- C4 counterexample: in disabledCexWorld entities 0 and 1 overlap and
    the pass detects it, yet entity 0's CollisionResult — present but
    disabled — receives no record, so the claimed unconditional
    append-to-both-participants does not hold. -/
theorem claim_C4_cex :
    checkCollision disabledCexWorld 0 1 = true ∧
    ((collisionUpdate disabledCexWorld).results 0).map CollisionResult.collisions =
      some [] := by
  constructor
  · norm_num [checkCollision, disabledCexWorld]
  · norm_num [collisionUpdate, clearCollisionResults, clearResultsPass, clearResultsStep,
      detectPairs, detectAgainst, storeCollisionResult, ensureCollisionResultComponent,
      addRecordTo, checkCollision, calculateCollisionPoint, calculateCollisionDir,
      CollisionWorld.setResult, CollisionResult.addCollision,
      CollisionResult.clearCollisions, disabledCexWorld]

/-- C4 amended: the AABB test is symmetric, and after a detection pass
    each participant of an overlapping tracked pair whose
    CollisionResult is absent (it is then lazily created enabled) or
    enabled holds a record referencing the other participant; a
    previously disabled CollisionResult is skipped by the append. -/
theorem claim_C4_symmetry_and_storage (w : CollisionWorld) (a b : Nat)
    (hab : a ≠ b) (ha : a ∈ w.tracked) (hb : b ∈ w.tracked)
    (hoverlap : checkCollision w a b = true)
    (hoka : resultOk w a) (hokb : resultOk w b) :
    (∀ x y, checkCollision w x y = checkCollision w y x) ∧
    hasRecordReferencing (collisionUpdate w) a b = true ∧
    hasRecordReferencing (collisionUpdate w) b a = true := by
  refine ⟨fun x y => checkCollision_symm w x y, ?_⟩
  unfold collisionUpdate
  exact detectPairs_finds w w.tracked (clearCollisionResults w) a b (clear_sameGeom w)
    ha hb hab hoverlap (clearPass_resultOk _ _ _ hoka) (clearPass_resultOk _ _ _ hokb)

/-- C4 witness: the overlapping pair 0, 1 of cleanDemoWorld. -/
theorem claim_C4_symmetry_and_storage_witness :
    hasRecordReferencing (collisionUpdate cleanDemoWorld) 0 1 = true ∧
    hasRecordReferencing (collisionUpdate cleanDemoWorld) 1 0 = true ∧
    checkCollision cleanDemoWorld 0 1 = checkCollision cleanDemoWorld 1 0 :=
  ⟨(claim_C4_symmetry_and_storage cleanDemoWorld 0 1 (by decide)
      (by decide) (by decide) (by norm_num [checkCollision, cleanDemoWorld])
      (fun r hr => Option.noConfusion hr) (fun r hr => Option.noConfusion hr)).2.1,
   (claim_C4_symmetry_and_storage cleanDemoWorld 0 1 (by decide)
      (by decide) (by decide) (by norm_num [checkCollision, cleanDemoWorld])
      (fun r hr => Option.noConfusion hr) (fun r hr => Option.noConfusion hr)).2.2,
   (claim_C4_symmetry_and_storage cleanDemoWorld 0 1 (by decide)
      (by decide) (by decide) (by norm_num [checkCollision, cleanDemoWorld])
      (fun r hr => Option.noConfusion hr) (fun r hr => Option.noConfusion hr)).1 0 1⟩

/-- A clearing step at x does not touch other entities. -/
theorem clearStep_results_other (acc : CollisionWorld) (x e : Nat) (hne : e ≠ x) :
    (clearResultsStep acc x).results e = acc.results e := by
  unfold clearResultsStep
  cases hres : acc.results x with
  | none => rfl
  | some r =>
    show (if r.enabled = true then acc.setResult x r.clearCollisions else acc).results e =
      acc.results e
    by_cases hen : r.enabled = true
    · rw [if_pos hen]
      exact setResult_results_other _ _ _ _ hne
    · rw [if_neg hen]

/-- Clearing an entity that holds an enabled result leaves it with an
    empty, still-enabled result. -/
theorem clearStep_establishes (acc : CollisionWorld) (e : Nat) (r : CollisionResult)
    (hres : acc.results e = some r) (hen : r.enabled = true) :
    ((clearResultsStep acc e).results e).map (fun cr => (cr.collisions, cr.enabled)) =
      some ([], true) := by
  unfold clearResultsStep
  rw [hres]
  show ((if r.enabled = true then acc.setResult e r.clearCollisions else acc).results e).map
      (fun cr => (cr.collisions, cr.enabled)) = some ([], true)
  rw [if_pos hen, setResult_results_self]
  simp [CollisionResult.clearCollisions, hen]

/-- A cleared-and-enabled slot stays cleared through further clearing
    steps. -/
theorem clearStep_keeps (acc : CollisionWorld) (x e : Nat)
    (h : (acc.results e).map (fun cr => (cr.collisions, cr.enabled)) = some ([], true)) :
    ((clearResultsStep acc x).results e).map (fun cr => (cr.collisions, cr.enabled)) =
      some ([], true) := by
  cases hres : acc.results e with
  | none =>
    rw [hres] at h
    cases h
  | some r =>
    rw [hres] at h
    simp only [Option.map_some'] at h
    injection h with h2
    rw [Prod.mk.injEq] at h2
    obtain ⟨hc, he⟩ := h2
    by_cases hxe : x = e
    · subst hxe
      exact clearStep_establishes acc x r hres he
    · rw [clearStep_results_other acc x e (fun hh => hxe hh.symm), hres]
      simp [hc, he]

/-- The clearing loop keeps cleared-and-enabled slots cleared. -/
theorem clearPass_keeps (e : Nat) (l : List Nat) :
    ∀ acc : CollisionWorld,
      (acc.results e).map (fun cr => (cr.collisions, cr.enabled)) = some ([], true) →
      ((clearResultsPass l acc).results e).map (fun cr => (cr.collisions, cr.enabled)) =
        some ([], true) := by
  induction l with
  | nil => intro acc h; exact h
  | cons x rest ih =>
    intro acc h
    rw [clearResultsPass_cons]
    exact ih _ (clearStep_keeps acc x e h)

/-- A clearing step keeps enabled results present and enabled. -/
theorem clearStep_someEnabled (acc : CollisionWorld) (x e : Nat)
    (h : ∃ r, acc.results e = some r ∧ r.enabled = true) :
    ∃ r, (clearResultsStep acc x).results e = some r ∧ r.enabled = true := by
  obtain ⟨r, hres, hen⟩ := h
  by_cases hxe : x = e
  · subst hxe
    unfold clearResultsStep
    rw [hres]
    show ∃ r', (if r.enabled = true then acc.setResult x r.clearCollisions else acc).results x =
      some r' ∧ r'.enabled = true
    rw [if_pos hen]
    exact ⟨r.clearCollisions, setResult_results_self _ _ _,
      by rw [clearCollisions_enabled]; exact hen⟩
  · exact ⟨r, by rw [clearStep_results_other acc x e (fun hh => hxe hh.symm)]; exact hres, hen⟩

/-- The clearing loop clears every listed entity that holds an enabled
    result. -/
theorem clearPass_establishes (e : Nat) (l : List Nat) :
    ∀ acc : CollisionWorld, e ∈ l → (∃ r, acc.results e = some r ∧ r.enabled = true) →
      ((clearResultsPass l acc).results e).map (fun cr => (cr.collisions, cr.enabled)) =
        some ([], true) := by
  induction l with
  | nil =>
    intro acc h
    cases h
  | cons x rest ih =>
    intro acc hmem hsome
    rw [clearResultsPass_cons]
    by_cases hxe : x = e
    · subst hxe
      obtain ⟨r, hres, hen⟩ := hsome
      exact clearPass_keeps x rest _ (clearStep_establishes acc x r hres hen)
    · have hmem' : e ∈ rest := by
        rcases List.mem_cons.mp hmem with h | h
        · exact absurd h.symm hxe
        · exact h
      exact ih _ hmem' (clearStep_someEnabled acc x e hsome)

/-- Clearing an entity leaves it without stale records. -/
theorem clearStep_noStale_self (acc : CollisionWorld) (e : Nat) :
    noStaleAt (clearResultsStep acc e) e := by
  unfold clearResultsStep
  cases hres : acc.results e with
  | none =>
    intro r hr
    rw [hres] at hr
    cases hr
  | some r =>
    show noStaleAt (if r.enabled = true then acc.setResult e r.clearCollisions else acc) e
    by_cases hen : r.enabled = true
    · rw [if_pos hen]
      intro r' hr' _
      rw [setResult_results_self] at hr'
      injection hr' with hinj
      rw [← hinj]
      rfl
    · rw [if_neg hen]
      intro r' hr' hen'
      rw [hres] at hr'
      injection hr' with hinj
      rw [← hinj] at hen'
      exact absurd hen' hen

/-- Clearing steps never introduce stale records. -/
theorem clearStep_noStale_keeps (acc : CollisionWorld) (x e : Nat)
    (h : noStaleAt acc e) : noStaleAt (clearResultsStep acc x) e := by
  by_cases hxe : x = e
  · subst hxe
    exact clearStep_noStale_self acc x
  · intro r hr
    rw [clearStep_results_other acc x e (fun hh => hxe hh.symm)] at hr
    exact h r hr

/-- The clearing loop never introduces stale records. -/
theorem clearPass_noStale_keeps (l : List Nat) :
    ∀ (acc : CollisionWorld) (e : Nat), noStaleAt acc e →
      noStaleAt (clearResultsPass l acc) e := by
  induction l with
  | nil => intro acc e h; exact h
  | cons x rest ih =>
    intro acc e h
    rw [clearResultsPass_cons]
    exact ih _ e (clearStep_noStale_keeps acc x e h)

/-- After the clearing loop, every listed entity is free of stale
    records. -/
theorem clearPass_noStale (l : List Nat) :
    ∀ (acc : CollisionWorld) (e : Nat), e ∈ l → noStaleAt (clearResultsPass l acc) e := by
  induction l with
  | nil =>
    intro acc e h
    cases h
  | cons x rest ih =>
    intro acc e hmem
    rw [clearResultsPass_cons]
    by_cases hmem' : e ∈ rest
    · exact ih _ e hmem'
    · have hxe : x = e := by
        rcases List.mem_cons.mp hmem with h | h
        · exact h.symm
        · exact absurd h hmem'
      subst hxe
      exact clearPass_noStale_keeps rest _ x (clearStep_noStale_self acc x)

/-- Replacing one entity's result preserves record justification when
    the new result's own records are justified. -/
theorem justified_setResult (w0 w : CollisionWorld) (e : Nat) (r : CollisionResult)
    (hj : recordsJustified w0 w)
    (hr : e ∈ w0.tracked → r.enabled = true → ∀ rec ∈ r.collisions,
      rec.entityA ∈ w0.tracked ∧ rec.entityB ∈ w0.tracked ∧
      checkCollision w0 rec.entityA rec.entityB = true) :
    recordsJustified w0 (w.setResult e r) := by
  intro n hn rn hrn henn recc hrecc
  by_cases hne : n = e
  · subst hne
    rw [setResult_results_self] at hrn
    injection hrn with hinj
    rw [← hinj] at henn hrecc
    exact hr hn henn recc hrecc
  · rw [setResult_results_other _ _ _ _ hne] at hrn
    exact hj n hn rn hrn henn recc hrecc

/-- Lazily creating an empty result preserves record justification. -/
theorem justified_ensure (w0 w : CollisionWorld) (e : Nat)
    (hj : recordsJustified w0 w) :
    recordsJustified w0 (ensureCollisionResultComponent w e) := by
  unfold ensureCollisionResultComponent
  cases hres : w.results e with
  | some r => exact hj
  | none =>
    apply justified_setResult w0 w e _ hj
    intro _ _ rec hrec
    cases hrec

/-- Appending the record of a justified overlap preserves record
    justification. -/
theorem justified_addRecordTo (w0 w : CollisionWorld) (owner a b : Nat)
    (pt dir : ℚ × ℚ) (hj : recordsJustified w0 w)
    (hta : a ∈ w0.tracked) (htb : b ∈ w0.tracked)
    (hcheck : checkCollision w0 a b = true) :
    recordsJustified w0 (addRecordTo w owner a b pt dir) := by
  unfold addRecordTo
  cases hres : w.results owner with
  | none => exact hj
  | some r =>
    show recordsJustified w0 (if r.enabled = true then
      w.setResult owner (r.addCollision owner a b pt.1 pt.2 dir.1 dir.2) else w)
    by_cases hen : r.enabled = true
    · rw [if_pos hen]
      apply justified_setResult w0 w owner _ hj
      intro howner _ rec hrec
      unfold CollisionResult.addCollision at hrec
      rcases List.mem_append.mp hrec with hold | hnew
      · exact hj owner howner r hres hen rec hold
      · rcases List.mem_singleton.mp hnew with rfl
        exact ⟨hta, htb, hcheck⟩
    · rw [if_neg hen]
      exact hj

/-- storeCollisionResult on an overlapping tracked pair preserves
    record justification. -/
theorem justified_store (w0 w : CollisionWorld) (a b : Nat)
    (hj : recordsJustified w0 w) (hgeom : sameGeom w0 w)
    (hta : a ∈ w0.tracked) (htb : b ∈ w0.tracked)
    (hcheckw : checkCollision w a b = true) :
    recordsJustified w0 (storeCollisionResult w a b) := by
  have hcheck0 : checkCollision w0 a b = true := by
    rw [← checkCollision_congr w0 w hgeom]
    exact hcheckw
  simp only [storeCollisionResult]
  exact justified_addRecordTo _ _ _ _ _ _ _
    (justified_addRecordTo _ _ _ _ _ _ _
      (justified_ensure _ _ _ (justified_ensure _ _ _ hj)) hta htb hcheck0)
    hta htb hcheck0

/-- The inner detection loop preserves record justification when every
    listed partner is tracked. -/
theorem justified_detectAgainst (w0 : CollisionWorld) (a : Nat) (l : List Nat) :
    ∀ w : CollisionWorld, recordsJustified w0 w → sameGeom w0 w → a ∈ w0.tracked →
      (∀ x ∈ l, x ∈ w0.tracked) → recordsJustified w0 (detectAgainst w a l) := by
  induction l with
  | nil => intro w hj _ _ _; exact hj
  | cons c rest ih =>
    intro w hj hgeom hta hl
    rw [detectAgainst_cons]
    by_cases hc : checkCollision w a c = true
    · rw [if_pos hc]
      exact ih _ (justified_store w0 w a c hj hgeom hta (hl c (List.mem_cons_self c rest)) hc)
        (sameGeom_trans hgeom (store_sameGeom w a c)) hta
        (fun x hx => hl x (List.mem_cons_of_mem c hx))
    · rw [if_neg hc]
      exact ih _ hj hgeom hta (fun x hx => hl x (List.mem_cons_of_mem c hx))

/-- The pairwise detection pass preserves record justification. -/
theorem justified_detectPairs (w0 : CollisionWorld) (l : List Nat) :
    ∀ w : CollisionWorld, recordsJustified w0 w → sameGeom w0 w →
      (∀ x ∈ l, x ∈ w0.tracked) → recordsJustified w0 (detectPairs w l) := by
  induction l with
  | nil => intro w hj _ _; exact hj
  | cons x rest ih =>
    intro w hj hgeom hl
    rw [detectPairs_cons]
    exact ih _
      (justified_detectAgainst w0 x rest w hj hgeom (hl x (List.mem_cons_self x rest))
        (fun y hy => hl y (List.mem_cons_of_mem x hy)))
      (sameGeom_trans hgeom (detectAgainst_sameGeom x rest w))
      (fun y hy => hl y (List.mem_cons_of_mem x hy))

/-- After the clearing pass every tracked, enabled record list is
    empty, hence trivially justified. -/
theorem justified_clear (w : CollisionWorld) :
    recordsJustified w (clearCollisionResults w) := by
  intro e he r hr hen rec hrec
  have hempty : r.collisions = [] := clearPass_noStale w.tracked w e he r hr hen
  rw [hempty] at hrec
  cases hrec

/-- C3 counterexample: in staleCexWorld, entity 0 held a stale record
    inside a disabled CollisionResult at the start of the pass; the
    entities do not overlap, yet the record is still present unchanged
    after the pass completes, so the claimed unconditional clearing of
    every CollisionResult holder does not hold. -/
theorem claim_C3_cex :
    checkCollision staleCexWorld 0 1 = false ∧
    (staleCexWorld.results 0).map CollisionResult.collisions = some [staleDemoRecord] ∧
    ((collisionUpdate staleCexWorld).results 0).map CollisionResult.collisions =
      some [staleDemoRecord] := by
  refine ⟨?_, rfl, ?_⟩
  · norm_num [checkCollision, staleCexWorld]
  · norm_num [collisionUpdate, clearCollisionResults, clearResultsPass, clearResultsStep,
      detectPairs, detectAgainst, storeCollisionResult, ensureCollisionResultComponent,
      addRecordTo, checkCollision, calculateCollisionPoint, calculateCollisionDir,
      CollisionWorld.setResult, CollisionResult.addCollision,
      CollisionResult.clearCollisions, staleCexWorld]

/-- C3 amended: a detection pass first clears the record list of every
    tracked entity whose CollisionResult is enabled (leaving it empty
    and still enabled), and after the full pass every record held by a
    tracked entity with an enabled CollisionResult references a
    currently-overlapping pair of tracked entities — so no stale record
    survives for tracked, enabled holders; a disabled or untracked
    CollisionResult is outside the clearing loop. -/
theorem claim_C3_clear_and_detection (w : CollisionWorld) (e : Nat)
    (he : e ∈ w.tracked) :
    (∀ r, w.results e = some r → r.enabled = true →
      ((clearCollisionResults w).results e).map (fun cr => (cr.collisions, cr.enabled)) =
        some ([], true)) ∧
    (∀ r, (collisionUpdate w).results e = some r → r.enabled = true →
      ∀ rec ∈ r.collisions,
        rec.entityA ∈ w.tracked ∧ rec.entityB ∈ w.tracked ∧
        checkCollision w rec.entityA rec.entityB = true) := by
  constructor
  · intro r hres hen
    exact clearPass_establishes e w.tracked w he ⟨r, hres, hen⟩
  · intro r hres hen rec hrec
    have hj : recordsJustified w (collisionUpdate w) := by
      unfold collisionUpdate
      exact justified_detectPairs w w.tracked (clearCollisionResults w) (justified_clear w)
        (clear_sameGeom w) (fun x hx => hx)
    exact hj e he r hres hen rec hrec

/-- C3 witness: clearing overlapDemoWorld empties entity 0's leftover
    record list while keeping the component enabled. -/
theorem claim_C3_clear_and_detection_witness :
    ((clearCollisionResults overlapDemoWorld).results 0).map
      (fun cr => (cr.collisions, cr.enabled)) = some ([], true) :=
  (claim_C3_clear_and_detection overlapDemoWorld 0 (by decide)).1
    { collisions := [staleDemoRecord], processed := true, frameCount := 0, enabled := true }
    rfl rfl

/-- One step of processDestroyRequests. -/
theorem pdr_cons (now : ℚ) (x : Nat) (rest : List Nat) (w : EESWorld)
    (queue : List (Nat × String)) :
    processDestroyRequests now (x :: rest) w queue =
      match w.destroyStore x with
      | none => processDestroyRequests now rest w queue
      | some d =>
        if d.processed then processDestroyRequests now rest w queue
        else if d.isReadyForDestruction now then
          processDestroyRequests now rest
            { w with destroyStore :=
                fun n => if n == x then some d.markProcessed else w.destroyStore n }
            (queue ++ [(x, "request:" ++ d.reason)])
        else processDestroyRequests now rest w queue := rfl

/-- processDestroyRequests never touches the system lists. -/
theorem pdr_systems (now : ℚ) (l : List Nat) :
    ∀ (w : EESWorld) (q : List (Nat × String)),
      (processDestroyRequests now l w q).1.systems = w.systems := by
  induction l with
  | nil => intro w q; rfl
  | cons x rest ih =>
    intro w q
    rw [pdr_cons]
    split
    · exact ih w q
    · split
      · exact ih w q
      · split
        · exact ih _ _
        · exact ih w q

/-- Entities outside the scan contribute nothing to the queue count. -/
theorem pdr_count_absent (now : ℚ) (e : Nat) (l : List Nat) :
    ∀ (w : EESWorld) (q : List (Nat × String)), e ∉ l →
      (processDestroyRequests now l w q).2.countP (fun m => m.1 == e) =
        q.countP (fun m => m.1 == e) := by
  induction l with
  | nil => intro w q _; rfl
  | cons x rest ih =>
    intro w q hne
    have hxe : x ≠ e := fun h => hne (h ▸ List.mem_cons_self x rest)
    have hrest : e ∉ rest := fun h => hne (List.mem_cons_of_mem x h)
    rw [pdr_cons]
    split
    · exact ih w q hrest
    · split
      · exact ih w q hrest
      · split
        · rw [ih _ _ hrest, List.countP_append]
          simp [hxe]
        · exact ih w q hrest

/-- A scanned entity with an unprocessed, ready DestroyRequest is
    queued exactly once by processDestroyRequests. -/
theorem pdr_count_found (now : ℚ) (e : Nat) (d : DestroyRequest) (l : List Nat) :
    ∀ (w : EESWorld) (q : List (Nat × String)), l.Nodup → e ∈ l →
      w.destroyStore e = some d → d.processed = false →
      d.isReadyForDestruction now = true →
      (processDestroyRequests now l w q).2.countP (fun m => m.1 == e) =
        q.countP (fun m => m.1 == e) + 1 := by
  induction l with
  | nil =>
    intro w q _ h
    cases h
  | cons x rest ih =>
    intro w q hnodup hmem hds hdp hready
    rw [List.nodup_cons] at hnodup
    rw [pdr_cons]
    by_cases hxe : x = e
    · subst hxe
      simp only [hds, hdp, Bool.false_eq_true, if_false, hready, if_true]
      rw [pdr_count_absent now x rest _ _ hnodup.1, List.countP_append]
      simp
    · have hmem' : e ∈ rest := by
        rcases List.mem_cons.mp hmem with h | h
        · exact absurd h.symm hxe
        · exact h
      split
      · exact ih w q hnodup.2 hmem' hds hdp hready
      · rename_i d2 hds2
        split
        · exact ih w q hnodup.2 hmem' hds hdp hready
        · split
          · have hds' : ({ w with destroyStore :=
                fun n => if n == x then some d2.markProcessed
                         else w.destroyStore n } : EESWorld).destroyStore e = some d := by
              show (if e == x then some d2.markProcessed else w.destroyStore e) = some d
              have hbe : (e == x) = false := by
                simp only [beq_eq_false_iff_ne, ne_eq]
                exact fun h => hxe h.symm
              rw [hbe]
              simp only [Bool.false_eq_true, if_false]
              exact hds
            rw [ih _ _ hnodup.2 hmem' hds' hdp hready, List.countP_append]
            have hbx : (x == e) = false := by simp [hxe]
            simp [List.countP_cons, hbx]
          · exact ih w q hnodup.2 hmem' hds hdp hready

/-- One step of the TTL loop. -/
theorem ttlPass_cons (w : EESWorld) (x : Nat) (rest : List Nat)
    (q : List (Nat × String)) :
    ttlPass w (x :: rest) q = ttlPass w rest (ttlStep w q x) := rfl

/-- The TTL step preserves the presence of an entity in the queue. -/
theorem ttlStep_any (w : EESWorld) (q : List (Nat × String)) (x e : Nat)
    (h : q.any (fun m => m.1 == e) = true) :
    (ttlStep w q x).any (fun m => m.1 == e) = true := by
  unfold ttlStep
  cases w.expirableStore x with
  | none => exact h
  | some b =>
    cases b with
    | false => exact h
    | true =>
      show (if q.any (fun m => m.1 == x) then q
        else q ++ [(x, "ttl:expired")]).any (fun m => m.1 == e) = true
      by_cases hq : q.any (fun m => m.1 == x) = true
      · rw [if_pos hq]
        exact h
      · rw [if_neg hq, List.any_append]
        simp [h]

/-- The TTL step never requeues an entity that is already queued. -/
theorem ttlStep_count (w : EESWorld) (q : List (Nat × String)) (x e : Nat)
    (h : q.any (fun m => m.1 == e) = true) :
    (ttlStep w q x).countP (fun m => m.1 == e) = q.countP (fun m => m.1 == e) := by
  unfold ttlStep
  cases w.expirableStore x with
  | none => rfl
  | some b =>
    cases b with
    | false => rfl
    | true =>
      show (if q.any (fun m => m.1 == x) then q
        else q ++ [(x, "ttl:expired")]).countP (fun m => m.1 == e) = _
      by_cases hq : q.any (fun m => m.1 == x) = true
      · rw [if_pos hq]
      · rw [if_neg hq]
        have hxe : (x == e) = false := by
          cases hbe : (x == e) with
          | false => rfl
          | true =>
            exfalso
            have hx : x = e := by simpa using hbe
            rw [hx] at hq
            exact hq h
        rw [List.countP_append]
        simp [List.countP_cons, hxe]

/-- The TTL loop leaves the count of an already-queued entity
    untouched. -/
theorem ttlPass_count (w : EESWorld) (e : Nat) (l : List Nat) :
    ∀ q, q.any (fun m => m.1 == e) = true →
      (ttlPass w l q).countP (fun m => m.1 == e) = q.countP (fun m => m.1 == e) := by
  induction l with
  | nil => intro q _; rfl
  | cons x rest ih =>
    intro q h
    rw [ttlPass_cons, ih _ (ttlStep_any w q x e h), ttlStep_count w q x e h]

/-- One step of cleanupEntities. -/
theorem cleanupEntities_cons (m : Nat × String) (rest : List (Nat × String))
    (w : EESWorld) :
    cleanupEntities (m :: rest) w =
      ((cleanupEntities rest
          { w with
            systems := w.systems.map (fun s => s.removeEntity m.1)
            expirableStore := fun n => if n == m.1 then none else w.expirableStore n
            destroyStore := fun n => if n == m.1 then none else w.destroyStore n }).1,
       CleanupAction.notifyDestroyed m.1 :: CleanupAction.removeAllComponents m.1 ::
         (cleanupEntities rest
          { w with
            systems := w.systems.map (fun s => s.removeEntity m.1)
            expirableStore := fun n => if n == m.1 then none else w.expirableStore n
            destroyStore := fun n => if n == m.1 then none else w.destroyStore n }).2) := rfl

/-- Removing an entity from a duplicate-free tracked list removes it
    completely. -/
theorem removeEntity_not_mem_self (s : SysState) (e : Nat) (h : s.entities.Nodup) :
    e ∉ (s.removeEntity e).entities := by
  unfold SysState.removeEntity
  exact h.not_mem_erase

/-- removeEntity never adds entities. -/
theorem removeEntity_keeps_not_mem (s : SysState) (x e : Nat)
    (h : e ∉ s.entities) : e ∉ (s.removeEntity x).entities :=
  fun hmem => h (List.mem_of_mem_erase hmem)

/-- removeEntity preserves duplicate-freeness. -/
theorem removeEntity_nodup (s : SysState) (x : Nat) (h : s.entities.Nodup) :
    (s.removeEntity x).entities.Nodup :=
  h.erase x

/-- Once an entity is out of every system, further cleanup steps keep
    it out. -/
theorem cleanup_keeps_not_mem (e : Nat) (l : List (Nat × String)) :
    ∀ w : EESWorld, (∀ s ∈ w.systems, e ∉ s.entities) →
      ∀ s ∈ (cleanupEntities l w).1.systems, e ∉ s.entities := by
  induction l with
  | nil => intro w h; exact h
  | cons m rest ih =>
    intro w h
    rw [cleanupEntities_cons]
    apply ih
    intro s hs
    rcases List.mem_map.mp hs with ⟨s0, hs0, rfl⟩
    exact removeEntity_keeps_not_mem s0 m.1 e (h s0 hs0)

/-- A queued entity ends up outside every system's tracked list after
    the cleanup pass (given duplicate-free tracked lists). -/
theorem cleanup_removes (e : Nat) (l : List (Nat × String)) :
    ∀ w : EESWorld, (∀ s ∈ w.systems, s.entities.Nodup) →
      (∃ m ∈ l, m.1 = e) →
      ∀ s ∈ (cleanupEntities l w).1.systems, e ∉ s.entities := by
  induction l with
  | nil =>
    intro w _ h
    obtain ⟨m, hm, _⟩ := h
    cases hm
  | cons m rest ih =>
    intro w hnd hex
    rw [cleanupEntities_cons]
    by_cases hme : m.1 = e
    · apply cleanup_keeps_not_mem
      intro s hs
      rcases List.mem_map.mp hs with ⟨s0, hs0, rfl⟩
      rw [hme]
      exact removeEntity_not_mem_self s0 e (hnd s0 hs0)
    · obtain ⟨m2, hm2, hm2e⟩ := hex
      have hm2r : m2 ∈ rest := by
        rcases List.mem_cons.mp hm2 with h | h
        · exfalso
          apply hme
          rw [← h]
          exact hm2e
        · exact h
      apply ih _ ?_ ⟨m2, hm2r, hm2e⟩
      intro s hs
      rcases List.mem_map.mp hs with ⟨s0, hs0, rfl⟩
      exact removeEntity_nodup s0 m.1 (hnd s0 hs0)

/-- Each queued entity's destroy notification appears in the cleanup
    trace immediately followed by its component strip. -/
theorem cleanup_trace_mark (e : Nat) (l : List (Nat × String)) :
    ∀ w : EESWorld, (∃ m ∈ l, m.1 = e) →
      notifyThenStrip e (cleanupEntities l w).2 := by
  induction l with
  | nil =>
    intro w h
    obtain ⟨m, hm, _⟩ := h
    cases hm
  | cons m rest ih =>
    intro w hex
    rw [cleanupEntities_cons]
    by_cases hme : m.1 = e
    · refine ⟨[], (cleanupEntities rest
        { w with
          systems := w.systems.map (fun s => s.removeEntity m.1)
          expirableStore := fun n => if n == m.1 then none else w.expirableStore n
          destroyStore := fun n => if n == m.1 then none else w.destroyStore n }).2, ?_⟩
      rw [hme]
      rfl
    · obtain ⟨m2, hm2, hm2e⟩ := hex
      have hm2r : m2 ∈ rest := by
        rcases List.mem_cons.mp hm2 with h | h
        · exfalso
          apply hme
          rw [← h]
          exact hm2e
        · exact h
      obtain ⟨s, t, ht⟩ := ih _ ⟨m2, hm2r, hm2e⟩
      exact ⟨CleanupAction.notifyDestroyed m.1 :: CleanupAction.removeAllComponents m.1 :: s,
        t, by rw [ht]; simp⟩

/-- The three components of eesUpdate, spelled out. -/
theorem eesUpdate_def (now : ℚ) (w : EESWorld) :
    (eesUpdate now w).2.1 =
      processTtlExpiration (processDestroyRequests now (allKnownEntities w) w []).1
        (processDestroyRequests now (allKnownEntities w) w []).2 ∧
    (eesUpdate now w).1 =
      (cleanupEntities
        (processTtlExpiration (processDestroyRequests now (allKnownEntities w) w []).1
          (processDestroyRequests now (allKnownEntities w) w []).2)
        (processDestroyRequests now (allKnownEntities w) w []).1).1 ∧
    (eesUpdate now w).2.2 =
      (cleanupEntities
        (processTtlExpiration (processDestroyRequests now (allKnownEntities w) w []).1
          (processDestroyRequests now (allKnownEntities w) w []).2)
        (processDestroyRequests now (allKnownEntities w) w []).1).2 :=
  ⟨rfl, rfl, rfl⟩

/-- C6: an entity that both has its Expirable flag set and holds an
    unprocessed DestroyRequest whose delay has elapsed is queued for
    destruction exactly once in the same update (deduplicated by entity
    id), is removed from every system's tracked list by the
    entity-destroyed fan-out, and that fan-out notification precedes
    the stripping of its components in the cleanup trace. -/
theorem claim_C6_destroy_once (now : ℚ) (w : EESWorld) (e : Nat) (d : DestroyRequest)
    (hsys : ∀ s ∈ w.systems, s.entities.Nodup)
    (he : e ∈ allKnownEntities w) (htr : e ∈ w.tracked)
    (hexp : w.expirableStore e = some true)
    (hd : w.destroyStore e = some d) (hdp : d.processed = false)
    (hready : d.isReadyForDestruction now = true) :
    (eesUpdate now w).2.1.countP (fun m => m.1 == e) = 1 ∧
    (∀ s ∈ (eesUpdate now w).1.systems, e ∉ s.entities) ∧
    notifyThenStrip e (eesUpdate now w).2.2 := by
  obtain ⟨hq, hw1, htrace⟩ := eesUpdate_def now w
  have hpcount : (processDestroyRequests now (allKnownEntities w) w []).2.countP
      (fun m => m.1 == e) = 1 := by
    have h := pdr_count_found now e d (allKnownEntities w) w []
      (List.nodup_dedup _) he hd hdp hready
    simpa using h
  have hany : (processDestroyRequests now (allKnownEntities w) w []).2.any
      (fun m => m.1 == e) = true := by
    apply List.any_eq_true.mpr
    have hpos : 0 < (processDestroyRequests now (allKnownEntities w) w []).2.countP
        (fun m => m.1 == e) := by
      rw [hpcount]
      norm_num
    obtain ⟨m, hm, hmp⟩ := List.countP_pos_iff.mp hpos
    exact ⟨m, hm, hmp⟩
  have hqcount : (eesUpdate now w).2.1.countP (fun m => m.1 == e) = 1 := by
    rw [hq]
    have h := ttlPass_count (processDestroyRequests now (allKnownEntities w) w []).1 e
      (processDestroyRequests now (allKnownEntities w) w []).1.tracked
      (processDestroyRequests now (allKnownEntities w) w []).2 hany
    exact h.trans hpcount
  have hqmem : ∃ m ∈ (eesUpdate now w).2.1, m.1 = e := by
    have hpos : 0 < (eesUpdate now w).2.1.countP (fun m => m.1 == e) := by
      rw [hqcount]
      norm_num
    obtain ⟨m, hm, hmp⟩ := List.countP_pos_iff.mp hpos
    exact ⟨m, hm, by simpa using hmp⟩
  refine ⟨hqcount, ?_, ?_⟩
  · rw [hw1]
    apply cleanup_removes e _ _ ?_ ?_
    · rw [pdr_systems]
      exact hsys
    · obtain ⟨m, hm, hme⟩ := hqmem
      rw [hq] at hm
      exact ⟨m, hm, hme⟩
  · rw [htrace]
    apply cleanup_trace_mark
    obtain ⟨m, hm, hme⟩ := hqmem
    rw [hq] at hm
    exact ⟨m, hm, hme⟩

/-- C6 witness: entity 7 of the demo cleanup world, expired and with a
    ready immediate DestroyRequest, at clock time 1. -/
theorem claim_C6_destroy_once_witness :
    (eesUpdate 1 eesDemoWorld).2.1.countP (fun m => m.1 == 7) = 1 ∧
    notifyThenStrip 7 (eesUpdate 1 eesDemoWorld).2.2 :=
  ⟨(claim_C6_destroy_once 1 eesDemoWorld 7
      { reason := "hit", delay := 0, processed := false, timestamp := 0 }
      (by decide) (by decide) (by decide) rfl rfl rfl
      (by norm_num [DestroyRequest.isReadyForDestruction])).1,
   (claim_C6_destroy_once 1 eesDemoWorld 7
      { reason := "hit", delay := 0, processed := false, timestamp := 0 }
      (by decide) (by decide) (by decide) rfl rfl rfl
      (by norm_num [DestroyRequest.isReadyForDestruction])).2.2⟩
